import Mathlib

/-!
Verification of the ScreenGuardian core (src/screenguardian_dev.py).

Modelling conventions:
* Python floats are modelled as exact rationals `ℚ`.
* Timestamps (`time.time()`) are modelled as natural-number seconds, so the
  Python truncation `int(now - start)` is exact; `max(0, a - b)` on integers
  coincides with truncated subtraction on `ℕ`.
* The sqlite store is modelled as a record of per-key tables; `INSERT OR
  REPLACE` is a pointwise functional update, a missing row reads as the
  code's fallback value.
-/

namespace ScreenGuardian

/-- Daily distance-log merge performed on flush
(`_stats_worker` lines 2290-2307 and `_on_close` lines 4195-4210):
`old_sum = old_avg * old_count`; `new_avg = (old_sum + pending_sum) /
(old_count + pending_count)` when the new count is positive, else `0.0`. -/
def mergeAvg (old_avg : ℚ) (old_count : ℕ) (pending_sum : ℚ) (pending_count : ℕ) : ℚ :=
  if 0 < old_count + pending_count then
    (old_avg * old_count + pending_sum) / ((old_count + pending_count : ℕ) : ℚ)
  else 0

/-- Arithmetic mean of a list of samples (`sum / count`; `0` for `[]`,
matching the code's `0.0` fallback for an absent row). -/
def listMean (l : List ℚ) : ℚ := l.sum / l.length

/-- One flush of a pending batch `b` into a stored `(avg, count)` row, exactly
as the code recomputes the row: the new average via `mergeAvg` and the new
count as `old_count + pending_count`. -/
def mergeBatch (st : ℚ × ℕ) (b : List ℚ) : ℚ × ℕ :=
  (mergeAvg st.1 st.2 b.sum b.length, st.2 + b.length)

/-- Folding a sequence of pending batches into an initially absent row
(`old_avg = 0.0`, `old_count = 0`). -/
def mergeBatches (bs : List (List ℚ)) : ℚ × ℕ :=
  bs.foldl mergeBatch (0, 0)

lemma listMean_mul_length (l : List ℚ) : listMean l * l.length = l.sum := by
  rcases eq_or_ne l.length 0 with h | h
  · have hl : l = [] := List.length_eq_zero.mp h
    subst hl; simp [listMean]
  · have h' : (l.length : ℚ) ≠ 0 := Nat.cast_ne_zero.mpr h
    unfold listMean
    field_simp

lemma mergeBatch_mean (acc b : List ℚ) :
    mergeBatch (listMean acc, acc.length) b =
      (listMean (acc ++ b), (acc ++ b).length) := by
  unfold mergeBatch mergeAvg
  refine Prod.ext ?_ (by simp)
  simp only
  by_cases h : 0 < acc.length + b.length
  · rw [if_pos h, listMean_mul_length]
    unfold listMean
    rw [List.sum_append, List.length_append]
  · have hacc : acc = [] := List.length_eq_zero.mp (by omega)
    have hb : b = [] := List.length_eq_zero.mp (by omega)
    subst hacc; subst hb
    simp [listMean]

lemma mergeBatches_foldl (bs : List (List ℚ)) (acc : List ℚ) :
    bs.foldl mergeBatch (listMean acc, acc.length) =
      (listMean (acc ++ bs.flatten), (acc ++ bs.flatten).length) := by
  induction bs generalizing acc with
  | nil => simp
  | cons b bs ih =>
    simp only [List.foldl_cons, mergeBatch_mean]
    rw [ih (acc ++ b)]
    simp [List.append_assoc]

/-- **C1.** The stored `avg_distance_cm` is always the exact weighted mean of
all samples ever merged into the date's key: folding any sequence of pending
batches through the code's merge yields the global mean and total count of
the concatenated samples; and merging one group's `(avg, n)` with a second
group's `(sum, n)` via the code's formula reproduces the global mean of the
whole sequence (exactly, over `ℚ`). -/
theorem distance_avg_exact_weighted_mean :
    (∀ bs : List (List ℚ),
        (mergeBatches bs).1 = listMean bs.flatten ∧
        (mergeBatches bs).2 = bs.flatten.length) ∧
    (∀ g1 g2 : List ℚ,
        mergeAvg (listMean g1) g1.length g2.sum g2.length =
          listMean (g1 ++ g2)) := by
  constructor
  · intro bs
    have h0 : (listMean [], ([] : List ℚ).length) = ((0 : ℚ), 0) := by
      simp [listMean]
    have hfold := mergeBatches_foldl bs []
    rw [h0] at hfold
    unfold mergeBatches
    rw [hfold]
    simp
  · intro g1 g2
    have hm := mergeBatch_mean g1 g2
    have h1 : (mergeBatch (listMean g1, g1.length) g2).1 =
        mergeAvg (listMean g1) g1.length g2.sum g2.length := rfl
    rw [hm] at h1
    exact h1.symm

/-! ### Distance estimator (`_stats_worker` lines 2186-2210) -/

/-- Exponential smoothing of the distance output (lines 2194-2197, 2205-2208):
`beta = 0.6`; the first sample seeds the filter directly, afterwards
`smoothed = beta * new + (1 - beta) * prev`. -/
def smoothDistance (prev : Option ℚ) (new : ℚ) : ℚ :=
  match prev with
  | none => new
  | some p => (6/10) * new + (1 - 6/10) * p

/-- One cycle of the distance-estimation block (lines 2186-2210). Inputs:
calibration `real_ipd`/`focal`, the optional eye-based pixel measurement
`pixel_ipd`, the optional `face_width` in pixels, and the smoothing state
`prev` (`self._smoothed_distance_cm`). The eye branch runs when
`pixel_ipd` is truthy and `> 2.0` and both calibration values are truthy
(nonzero); otherwise the face-width fallback runs when `face_width > 8`
with a fixed `avg_face_cm = 14.0`. Returns `(distance_cm, new smoothing
state)`. -/
def estimatorStep (real_ipd focal : ℚ) (pixel_ipd face_width : Option ℚ)
    (prev : Option ℚ) : Option ℚ × Option ℚ :=
  let eyeRaw : Option ℚ :=
    match pixel_ipd with
    | some p =>
        if 2 < p ∧ real_ipd ≠ 0 ∧ focal ≠ 0 then some (real_ipd * focal / p)
        else none
    | none => none
  match eyeRaw with
  | some raw =>
      let sm := smoothDistance prev raw
      (some sm, some sm)
  | none =>
      match face_width with
      | some fw =>
          if 8 < fw then
            let sm := smoothDistance prev (14 * focal / fw)
            (some sm, some sm)
          else (none, prev)
      | none => (none, prev)

/-- Iterating the estimator on the constant synthetic input of the C6
scenario: no eye measurement, face width a constant `100` px, `focal = 700`. -/
def scenarioStep (prev : Option ℚ) : Option ℚ :=
  (estimatorStep (63/10) 700 none (some 100) prev).2

lemma scenarioStep_none : scenarioStep none = some 98 := by
  norm_num [scenarioStep, estimatorStep, smoothDistance]

lemma scenarioStep_fix : scenarioStep (some 98) = some 98 := by
  norm_num [scenarioStep, estimatorStep, smoothDistance]

lemma scenarioStep_iterate (n : ℕ) : scenarioStep^[n + 1] none = some 98 := by
  induction n with
  | zero => simpa using scenarioStep_none
  | succ k ih =>
      rw [Function.iterate_succ_apply', ih, scenarioStep_fix]

/-- **C6.** With an eye-based pixel measurement `p > 2` px and nonzero
calibration the raw estimate is `real_ipd * focal / p`; the face-width
fallback (taken when no eye estimate is available and `face_width > 8`)
uses `14 * focal / face_width`; both are smoothed with `beta = 0.6`, the
first sample seeding the filter; and on the constant synthetic input
(face width 100 px, focal 700) every cycle produces `98` cm, at which the
smoothed output stays fixed. -/
theorem distance_estimator_contract
    (real_ipd focal p fw : ℚ) (prev : Option ℚ)
    (hp : 2 < p) (hr : real_ipd ≠ 0) (hf : focal ≠ 0) (hfw : 8 < fw) :
    (estimatorStep real_ipd focal (some p) (some fw) prev).1 =
        some (smoothDistance prev (real_ipd * focal / p)) ∧
    (estimatorStep real_ipd focal none (some fw) prev).1 =
        some (smoothDistance prev (14 * focal / fw)) ∧
    estimatorStep real_ipd focal (some p) (some fw) none =
        (some (real_ipd * focal / p), some (real_ipd * focal / p)) ∧
    (∀ q new : ℚ, smoothDistance (some q) new = (6/10) * new + (4/10) * q) ∧
    (∀ n : ℕ, scenarioStep^[n + 1] none = some 98) ∧
    (∀ st : Option ℚ, st = none ∨ st = some 98 →
        (estimatorStep (63/10) 700 none (some 100) st).1 = some 98) := by
  refine ⟨?_, ?_, ?_, ?_, scenarioStep_iterate, ?_⟩
  · simp [estimatorStep, hp, hr, hf]
  · simp [estimatorStep, hfw]
  · simp [estimatorStep, hp, hr, hf, smoothDistance]
  · intro q new
    norm_num [smoothDistance]
  · rintro st (rfl | rfl)
    · norm_num [estimatorStep, smoothDistance]
    · norm_num [estimatorStep, smoothDistance]

/-- Witness for `distance_estimator_contract` at `real_ipd = 63/10`,
`focal = 700`, `p = 10`, `fw = 100`, `prev = none`. -/
theorem distance_estimator_contract_witness :
    (estimatorStep (63/10) 700 (some 10) (some 100) none).1 =
        some (smoothDistance none ((63/10) * 700 / 10)) ∧
    (estimatorStep (63/10) 700 none (some 100) none).1 =
        some (smoothDistance none (14 * 700 / 100)) := by
  have h := distance_estimator_contract (63/10) 700 10 100 none
    (by norm_num) (by norm_num) (by norm_num) (by norm_num)
  exact ⟨h.1, h.2.1⟩

/-! ### Posture/behavior classifier (`_compute_posture_flags`, lines
1702-1821). Geometry that the Python code obtains from transcendental
library calls (`np.linalg.norm` for the shoulder span, `math.atan2 /
math.degrees` for the shoulder-line and eye-line angles) enters the model
as already-measured rational inputs; every comparison, ratio and flag
assignment is embedded from the source. -/

/-- The nine flags of one classified frame (`flags` dict, line 1705). -/
structure PostureFlags where
  vertical_bad : Bool
  depth_bad : Bool
  eye_tilt_bad : Bool
  head_twist_bad : Bool
  neck_short_bad : Bool
  body_turned : Bool
  horizontal_offset_bad : Bool
  nail_biting : Bool
  face_touch : Bool
deriving Repr, DecidableEq

/-- All-false flags: the dict initialiser at line 1705 and the value
returned by the `except` handler at line 1821. -/
def allFalseFlags : PostureFlags :=
  ⟨false, false, false, false, false, false, false, false, false⟩

/-- A fingertip point: pixel coordinates and the normalized depth `z`. -/
structure Fingertip where
  px : ℚ
  py : ℚ
  z : ℚ
deriving Repr, DecidableEq

/-- A pixel-space box `(x, y, w, h)`. -/
structure Box where
  x : ℚ
  y : ℚ
  w : ℚ
  h : ℚ
deriving Repr, DecidableEq

/-- Configured thresholds and calibration values read by the classifier. -/
structure PostureParams where
  posture_vert_thresh : ℚ
  posture_depth_thresh : ℚ
  posture_eye_tilt_thresh : ℚ
  posture_neck_thresh : ℚ
  neutral_tilt : ℚ
  enable_nail_biting : Bool
  enable_face_touch : Bool
deriving Repr, DecidableEq

/-- One frame's measurements as passed to `_compute_posture_flags`.
`shoulders` carries `(span, angle)` — the externally computed
`np.linalg.norm` / `atan2`-degrees of the detected shoulder pair — and
`eye_data` carries `(dy, angle)` for the eye line, `dy` the right-minus-left
vertical center difference and `angle` its `atan2` degrees. -/
structure PostureInput where
  nose : Option (ℚ × ℚ)
  head_center : Option (ℚ × ℚ)
  shoulder_mid : Option (ℚ × ℚ)
  shoulders : Option (ℚ × ℚ)
  face_width : ℚ
  eye_data : Option (ℚ × ℚ)
  mouth_box : Option Box
  face_box : Option Box
  last_face_box : Option Box
  hands : List (List Fingertip)
  img_ok : Bool
deriving Repr, DecidableEq

/-- `1e-6`, the denominator guard used throughout the classifier. -/
def geps : ℚ := 1/1000000

/-- `hx, hy` resolution (lines 1709-1712): head center preferred, nose as
fallback. -/
def headXY (inp : PostureInput) : Option (ℚ × ℚ) :=
  inp.head_center.orElse (fun _ => inp.nose)

/-- Nail-biting hit test for one fingertip against the padded mouth box
(lines 1789-1793): `NAIL_CONTACT_MARGIN = 4`, `NAIL_BITING_DEPTH_THRESH =
0.1`. -/
def nailHit (mouth : Option Box) (p : Fingertip) : Bool :=
  match mouth with
  | some b =>
      decide (b.x - 4 ≤ p.px ∧ p.px ≤ b.x + b.w + 4 ∧
        b.y - 4 ≤ p.py ∧ p.py ≤ b.y + b.h + 4 ∧ p.z < 1/10)
  | none => false

/-- Face-touch hit test for one fingertip against the shrunken face box
(lines 1797-1801): `FACE_TOUCH_MARGIN = 6`. -/
def faceHit (ref : Option Box) (p : Fingertip) : Bool :=
  match ref with
  | some b =>
      decide (b.x + 6 ≤ p.px ∧ p.px ≤ b.x + b.w - 6 ∧
        b.y + 6 ≤ p.py ∧ p.py ≤ b.y + b.h - 6 ∧ p.z < 1/10)
  | none => false

/-- Scan of one hand's fingertip points (inner loop, lines 1785-1803): a hit
sets the flag and `break`s out of the fingertip loop. -/
def scanHand (P : PostureParams) (mouth ref : Option Box) :
    Bool → Bool → List Fingertip → Bool × Bool
  | nail, face, [] => (nail, face)
  | nail, face, p :: rest =>
      if P.enable_nail_biting && nailHit mouth p then (true, face)
      else if P.enable_face_touch && faceHit ref p then (nail, true)
      else scanHand P mouth ref nail face rest

/-- Scan over all hands (outer loop, lines 1784-1805): stops early once both
flags are set. -/
def scanHands (P : PostureParams) (mouth ref : Option Box) :
    Bool → Bool → List (List Fingertip) → Bool × Bool
  | nail, face, [] => (nail, face)
  | nail, face, h :: rest =>
      let r := scanHand P mouth ref nail face h
      if r.1 && r.2 then r else scanHands P mouth ref r.1 r.2 rest

/-- The behavior-flag computation (lines 1782-1805), gated exactly as the
source: a detection pass runs only when nail-biting or face-touch is
enabled, hands were detected, and the image size is truthy; the face
reference falls back to the last known face box. -/
def behaviorScan (P : PostureParams) (inp : PostureInput) : Bool × Bool :=
  if (P.enable_nail_biting || P.enable_face_touch) && !inp.hands.isEmpty
      && inp.img_ok then
    scanHands P inp.mouth_box (inp.face_box.orElse fun _ => inp.last_face_box)
      false false inp.hands
  else (false, false)

/-- The suppression block (lines 1806-1817): a turned body clears the six
pure-posture flags; otherwise a shoulder-line angle beyond 15 degrees
clears `eye_tilt_bad` alone. -/
def applySuppression (shoulder_angle : ℚ) (f : PostureFlags) : PostureFlags :=
  if f.body_turned then
    { f with eye_tilt_bad := false, head_twist_bad := false,
             vertical_bad := false, depth_bad := false,
             neck_short_bad := false, horizontal_offset_bad := false }
  else if |shoulder_angle| > 15 then { f with eye_tilt_bad := false }
  else f

/-- `_compute_posture_flags` (lines 1702-1821). Returns the flags and the
updated adaptive depth baseline (`self._depth_baseline`). Early returns:
a missing/degenerate face width or a missing head point return all-false
flags untouched; a missing shoulder midpoint makes the Python neck
computation raise (`1.0 - None`), so the `except` handler returns all-false
flags — but only after the depth baseline has already been advanced. -/
def computePostureFlags (P : PostureParams) (baseline : Option ℚ)
    (inp : PostureInput) : PostureFlags × Option ℚ :=
  if inp.face_width ≤ 1 then (allFalseFlags, baseline)
  else
    match headXY inp with
    | none => (allFalseFlags, baseline)
    | some (hx, hy) =>
      let sa := match inp.shoulders with
        | some sa => sa
        | none => (max 1 (inp.face_width * 8/5), 0)
      let span := sa.1
      let shoulder_angle := sa.2
      let ratio := span / (inp.face_width + geps)
      let body_turned : Bool := decide (ratio < (115/100) * (78/100))
      let depth_ratio := inp.face_width / (span + geps)
      let baseline' := match baseline with
        | none => depth_ratio
        | some b => (8/100) * depth_ratio + (1 - 8/100) * b
      let depth_bad : Bool := decide (depth_ratio > baseline' * P.posture_depth_thresh)
      match inp.shoulder_mid with
      | none => (allFalseFlags, some baseline')
      | some (smx, smy) =>
        let vertical_ratio := (smy - hy) / (inp.face_width * 5/4 + geps)
        let vertical_bad : Bool := decide (vertical_ratio < P.posture_vert_thresh)
        let eyes := match inp.eye_data with
          | some (dy, ang) => (|dy| / (inp.face_width * 5/4 + geps), ang, |dy|)
          | none => ((0 : ℚ), (0 : ℚ), (0 : ℚ))
        let eye_tilt_norm := eyes.1
        let eye_tilt_angle := eyes.2.1
        let eye_vertical_diff_norm := eyes.2.2 / (inp.face_width + geps)
        let head_twist_deg := |eye_tilt_angle - P.neutral_tilt|
        let eye_tilt_bad : Bool :=
          (decide (eye_tilt_norm > P.posture_eye_tilt_thresh) || decide (head_twist_deg > 10))
            || decide (eye_vertical_diff_norm > 5/100)
        let head_twist_bad : Bool := decide (head_twist_deg > 12)
        let neck_len := match inp.nose with
          | some n => (smy - n.2) / (inp.face_width * 5/4 + geps)
          | none => vertical_ratio
        let neck_short_bad : Bool := decide ((1 - neck_len) > P.posture_neck_thresh)
        let horizontal_offset_bad : Bool :=
          if hx ≠ 0 then
            decide (|hx - smx| / (inp.face_width + geps) > 15/100) && !body_turned
          else false
        let bf := behaviorScan P inp
        let raw : PostureFlags :=
          { vertical_bad := vertical_bad, depth_bad := depth_bad,
            eye_tilt_bad := eye_tilt_bad, head_twist_bad := head_twist_bad,
            neck_short_bad := neck_short_bad, body_turned := body_turned,
            horizontal_offset_bad := horizontal_offset_bad,
            nail_biting := bf.1, face_touch := bf.2 }
        (applySuppression shoulder_angle raw, some baseline')

/-- **C5.** On every classified frame where the returned flags have
`body_turned = true`, the six pure-posture flags come out false regardless
of their raw computed values, while the behavior flags equal the raw
detection result of the fingertip scan — the suppression does not clear
them. -/
theorem body_turned_suppression
    (P : PostureParams) (baseline : Option ℚ) (inp : PostureInput)
    (h : (computePostureFlags P baseline inp).1.body_turned = true) :
    (computePostureFlags P baseline inp).1.eye_tilt_bad = false ∧
    (computePostureFlags P baseline inp).1.vertical_bad = false ∧
    (computePostureFlags P baseline inp).1.depth_bad = false ∧
    (computePostureFlags P baseline inp).1.head_twist_bad = false ∧
    (computePostureFlags P baseline inp).1.neck_short_bad = false ∧
    (computePostureFlags P baseline inp).1.horizontal_offset_bad = false ∧
    (computePostureFlags P baseline inp).1.nail_biting = (behaviorScan P inp).1 ∧
    (computePostureFlags P baseline inp).1.face_touch = (behaviorScan P inp).2 := by
  unfold computePostureFlags at *
  by_cases hfw : inp.face_width ≤ 1
  · simp only [hfw, if_true] at h
    exact absurd h (by simp [allFalseFlags])
  · simp only [hfw, if_false] at h ⊢
    rcases hhead : headXY inp with _ | ⟨hx, hy⟩ <;>
      simp only [hhead] at h ⊢
    · exact absurd h (by simp [allFalseFlags])
    · rcases hsm : inp.shoulder_mid with _ | ⟨smx, smy⟩ <;>
        simp only [hsm] at h ⊢
      · exact absurd h (by simp [allFalseFlags])
      · simp only [applySuppression] at h ⊢
        by_cases hbt :
            (decide ((match inp.shoulders with
              | some sa => sa
              | none => (max 1 (inp.face_width * 8/5), 0)).1 /
                (inp.face_width + geps) < (115/100) * (78/100)) : Bool) = true
        · simp [hbt]
        · simp only [Bool.not_eq_true] at hbt
          simp only [hbt] at h
          simp only [Bool.false_eq_true, if_false] at h
          by_cases hang : |(match inp.shoulders with
              | some sa => sa
              | none => (max 1 (inp.face_width * 8/5), 0)).2| > 15
          · simp only [hang, if_true] at h
            exact absurd h (by simp [hbt])
          · simp only [hang, if_false] at h
            exact absurd h (by simp [hbt])

/-- Witness for `body_turned_suppression`: a frame whose shoulder span (50)
is foreshortened against the face width (100), so `body_turned` computes
true while the raw vertical/neck measurements would flag bad posture. -/
theorem body_turned_suppression_witness :
    (computePostureFlags
      ⟨7/10, 122/100, 8/100, 55/100, 0, true, true⟩ none
      ⟨some (50, 40), none, some (50, 60), some (50, 0), 100,
        some (20, 20), none, none, none, [], true⟩).1.body_turned = true ∧
    (computePostureFlags
      ⟨7/10, 122/100, 8/100, 55/100, 0, true, true⟩ none
      ⟨some (50, 40), none, some (50, 60), some (50, 0), 100,
        some (20, 20), none, none, none, [], true⟩).1.vertical_bad = false := by
  have hbt : (computePostureFlags
      ⟨7/10, 122/100, 8/100, 55/100, 0, true, true⟩ none
      ⟨some (50, 40), none, some (50, 60), some (50, 0), 100,
        some (20, 20), none, none, none, [], true⟩).1.body_turned = true := by
    norm_num [computePostureFlags, headXY, geps, behaviorScan, applySuppression]
  exact ⟨hbt, (body_turned_suppression _ _ _ hbt).2.1⟩

/-! ### Frame handoff (`queue.Queue(maxsize=1)` line 373; producer lines
1484-1487) -/

/-- The producer side of the frame handoff: `put_nowait(frame)` on a
`maxsize=1` queue succeeds only when the slot is empty; on `queue.Full`
the exception is swallowed (`except queue.Full: pass`), so the offered
frame is discarded and the stored frame kept. The producer never blocks:
this is a total function of the slot. -/
def offerFrame {α : Type} (slot : Option α) (f : α) : Option α :=
  match slot with
  | none => some f
  | some old => some old

/-- The consumer side: `frame_queue.get` empties the slot, yielding the
stored frame when one is present. -/
def takeFrame {α : Type} (slot : Option α) : Option α × Option α :=
  (slot, none)

/-- **C9 counterexample.** With frame `0` already in the slot, offering
frame `1` keeps the stored frame `0`: the slot is *not* overwritten by the
new frame, refuting latest-frame-wins. -/
theorem frame_handoff_not_latest_wins :
    offerFrame (some (0 : ℕ)) 1 = some 0 ∧ some (0 : ℕ) ≠ some 1 := by
  refine ⟨rfl, ?_⟩
  simp

/-- **C9 (amended).** The handoff is a single-slot, never-blocking buffer in
which the *newest* frame loses: an empty slot stores the offered frame,
while a full slot keeps its stored frame and discards the offered one; the
consumer's take empties the slot. -/
theorem frame_handoff_single_slot_drop_newest {α : Type} (slot : Option α) (f : α) :
    (slot = none → offerFrame slot f = some f) ∧
    (∀ old, slot = some old → offerFrame slot f = some old) ∧
    (takeFrame (offerFrame slot f)).2 = none := by
  refine ⟨?_, ?_, rfl⟩
  · rintro rfl; rfl
  · rintro old rfl; rfl

/-- Witness for `frame_handoff_single_slot_drop_newest` at a concrete empty
and a concrete full slot. -/
theorem frame_handoff_single_slot_drop_newest_witness :
    offerFrame (none : Option ℕ) 1 = some 1 ∧ offerFrame (some (7 : ℕ)) 1 = some 7 := by
  exact ⟨(frame_handoff_single_slot_drop_newest none 1).1 rfl,
    (frame_handoff_single_slot_drop_newest (some 7) 1).2.1 7 rfl⟩

/-! ### Time-bucketed aggregator
(`_stats_worker` lines 2060-2094, 2136-2144, 2263-2325; `_update_posture_state`
lines 1898-1910; `_flush_hourly_metrics` lines 2336-2381; `_on_close` lines
4160-4215; `_execute_data_erase` lines 1221-1261).

A cycle event carries the wall-clock second `now`, whether a face was
detected (`vis`), the posture condition when a classification ran
(`pos = some b` with `b = posture_detected and (not body_turn or
head_turn_bad)`), and an optional accepted distance sample. Storage
operations (each `cursor.execute` and `conn.commit`) are numbered in
execution order; an injected failure index makes that operation raise, and
the Python `try/except` structure decides what is skipped. Uncommitted
writes live in a staged copy of the store (the open sqlite transaction);
`conn.commit` publishes the staged copy to the durable store; closing the
connection discards the staged copy. The run models one calendar day
(`today` constant). -/

/-- In-memory aggregator fields of `ScreenGuardianApp`. -/
structure AggState where
  visible_seconds : ℕ
  visible_start : Option ℕ
  slouch_accum_seconds : ℕ
  slouch_session_start : Option ℕ
  saved_visible_seconds : ℕ
  saved_slouch_seconds : ℕ
  prev_total_visible : ℕ
  prev_total_slouch : ℕ
  pending_hour_visible_seconds : ℕ
  pending_hour_slouch_seconds : ℕ
  pending_hour_distance_sum : ℚ
  pending_hour_distance_count : ℕ
  pending_distance_sum : ℚ
  pending_distance_count : ℕ
  distance_sum_total : ℚ
  distance_count_total : ℕ
  distances_buffer : List ℚ
  active_alerts : List String

/-- The aggregator fields at application start (lines 340-364). -/
def initAgg : AggState :=
  ⟨0, none, 0, none, 0, 0, 0, 0, 0, 0, 0, 0, 0, 0, 0, 0, [], []⟩

/-- The seven persisted tables plus the separately persisted calibration
profile is modelled elsewhere; rows read as `none` when absent. -/
structure Store where
  screen_time : String → Option ℕ
  posture_time : String → Option ℕ
  distance_log : String → Option (ℚ × ℕ)
  screen_hourly : String → Option ℕ
  posture_hourly : String → Option ℕ
  distance_hourly : String → Option (ℚ × ℕ)
  alerts : List (String × String)

/-- A store with no rows. -/
def emptyStore : Store :=
  ⟨fun _ => none, fun _ => none, fun _ => none, fun _ => none,
   fun _ => none, fun _ => none, []⟩

/-- `INSERT OR REPLACE` into a single-valued table. -/
def upsert {α : Type} (tbl : String → Option α) (key : String) (v : α) :
    String → Option α :=
  fun x => if x = key then some v else tbl x

/-- The sqlite connection: `staged` is what reads through the open
transaction see, `durable` what a crash or close-without-commit leaves. -/
structure DB where
  staged : Store
  durable : Store

/-- A freshly opened connection over a durable store. -/
def initDB : DB := ⟨emptyStore, emptyStore⟩

/-- In-flight flush bookkeeping: the connection, the number of storage
operations executed so far, and whether an exception is propagating. -/
structure FlushM where
  staged : Store
  durable : Store
  k : ℕ
  failed : Bool

def FlushM.ofDB (db : DB) : FlushM := ⟨db.staged, db.durable, 0, false⟩

def FlushM.toDB (m : FlushM) : DB := ⟨m.staged, m.durable⟩

/-- Execute a read (`cursor.execute(SELECT ...)` + `fetchone`): skipped while
an exception propagates; raises when its index is the injected failure. -/
def doRead {α : Type} (m : FlushM) (failAt : Option ℕ) (read : Store → α)
    (dflt : α) : FlushM × α :=
  if m.failed then (m, dflt)
  else if failAt = some m.k then ({ m with k := m.k + 1, failed := true }, dflt)
  else ({ m with k := m.k + 1 }, read m.staged)

/-- Execute a write (`cursor.execute(INSERT OR REPLACE ...)`): stages the
update in the open transaction. -/
def doWrite (m : FlushM) (failAt : Option ℕ) (write : Store → Store) : FlushM :=
  if m.failed then m
  else if failAt = some m.k then { m with k := m.k + 1, failed := true }
  else { m with k := m.k + 1, staged := write m.staged }

/-- Execute `conn.commit()`: publishes the staged writes. -/
def doCommit (m : FlushM) (failAt : Option ℕ) : FlushM :=
  if m.failed then m
  else if failAt = some m.k then { m with k := m.k + 1, failed := true }
  else { m with k := m.k + 1, durable := m.staged }

/-- `total_visible` of the current cycle (line 2090):
`visible_seconds + int(now - visible_start)` when a segment is open. -/
def totalVisible (s : AggState) (now : ℕ) : ℕ :=
  s.visible_seconds + (match s.visible_start with
    | some t0 => now - t0
    | none => 0)

/-- `current_slouch_total` (line 2136). -/
def totalSlouch (s : AggState) (now : ℕ) : ℕ :=
  s.slouch_accum_seconds + (match s.slouch_session_start with
    | some t0 => now - t0
    | none => 0)

/-- Visibility bookkeeping of one cycle (lines 2060-2089): a newly seen face
opens the visible segment; a lost face closes the open slouch segment and
then the open visible segment, folding their durations. -/
def cycleVis (s : AggState) (now : ℕ) (vis : Bool) : AggState :=
  if vis then
    match s.visible_start with
    | none => { s with visible_start := some now }
    | some _ => s
  else
    let s1 := match s.slouch_session_start with
      | some t0 =>
          { s with slouch_accum_seconds := s.slouch_accum_seconds + (now - t0),
                   slouch_session_start := none }
      | none => s
    match s1.visible_start with
    | some t0 =>
        { s1 with visible_seconds := s1.visible_seconds + (now - t0),
                  visible_start := none }
    | none => s1

/-- Hourly pending update for visible time (lines 2090-2094):
`delta = max(0, total - prev_total)` feeds the hourly pending buffer. -/
def cyclePendingVisible (s : AggState) (now : ℕ) : AggState :=
  let total := totalVisible s now
  let delta := total - s.prev_total_visible
  if 0 < delta then
    { s with pending_hour_visible_seconds := s.pending_hour_visible_seconds + delta,
             prev_total_visible := total }
  else { s with prev_total_visible := total }

/-- Hourly pending update for slouch time (lines 2136-2140). -/
def cyclePendingSlouch (s : AggState) (now : ℕ) : AggState :=
  let total := totalSlouch s now
  let delta := total - s.prev_total_slouch
  if 0 < delta then
    { s with pending_hour_slouch_seconds := s.pending_hour_slouch_seconds + delta,
             prev_total_slouch := total }
  else { s with prev_total_slouch := total }

/-- Slouch-segment transition of `_update_posture_state` (lines 1898-1910),
run only when a classification happened this cycle. -/
def cyclePosture (s : AggState) (now : ℕ) (pos : Option Bool) : AggState :=
  match pos with
  | none => s
  | some b =>
      if b then
        match s.slouch_session_start with
        | none => { s with slouch_session_start := some now }
        | some _ => s
      else
        match s.slouch_session_start with
        | some t0 =>
            { s with slouch_accum_seconds := s.slouch_accum_seconds + (now - t0),
                     slouch_session_start := none }
        | none => s

/-- Acceptance of one distance sample (lines 2211-2226): appended to the
session buffer (bounded at 600) and added to all distance accumulators. -/
def cycleSample (s : AggState) (sample : Option ℚ) : AggState :=
  match sample with
  | none => s
  | some d =>
      let buf := s.distances_buffer ++ [d]
      { s with
        distances_buffer := if 600 < buf.length then buf.drop 1 else buf,
        distance_sum_total := s.distance_sum_total + d,
        distance_count_total := s.distance_count_total + 1,
        pending_distance_sum := s.pending_distance_sum + d,
        pending_distance_count := s.pending_distance_count + 1,
        pending_hour_distance_sum := s.pending_hour_distance_sum + d,
        pending_hour_distance_count := s.pending_hour_distance_count + 1 }

/-- One full detection cycle of `_stats_worker`, in source order: visibility
(2060-2089), visible hourly pending (2090-2094), slouch hourly pending
(2136-2140), posture-state slouch transition (2141-2144, gated on a
detected face), distance sample (2211-2226). -/
def cycle (s : AggState) (now : ℕ) (vis : Bool) (pos : Option Bool)
    (sample : Option ℚ) : AggState :=
  cycleSample
    (cyclePosture
      (cyclePendingSlouch
        (cyclePendingVisible (cycleVis s now vis) now) now)
      now (if vis then pos else none))
    sample

/-- The storage operations of `_flush_hourly_metrics` (lines 2342-2370):
read-modify-write of each nonempty pending hourly buffer into its table,
then `conn.commit` under `auto_commit` when anything changed. -/
def flushHourlyOps (s : AggState) (m : FlushM) (failAt : Option ℕ)
    (hour : String) (auto_commit : Bool) : FlushM :=
  let m1 :=
    if 0 < s.pending_hour_visible_seconds then
      let r := doRead m failAt (fun st => (st.screen_hourly hour).getD 0) 0
      doWrite r.1 failAt (fun st =>
        { st with screen_hourly :=
            upsert st.screen_hourly hour (r.2 + s.pending_hour_visible_seconds) })
    else m
  let m2 :=
    if 0 < s.pending_hour_slouch_seconds then
      let r := doRead m1 failAt (fun st => (st.posture_hourly hour).getD 0) 0
      doWrite r.1 failAt (fun st =>
        { st with posture_hourly :=
            upsert st.posture_hourly hour (r.2 + s.pending_hour_slouch_seconds) })
    else m1
  let m3 :=
    if 0 < s.pending_hour_distance_count then
      let r := doRead m2 failAt
        (fun st => (st.distance_hourly hour).getD (0, 0)) (0, 0)
      let newRow := (r.2.1 + s.pending_hour_distance_sum,
        r.2.2 + s.pending_hour_distance_count)
      doWrite r.1 failAt (fun st =>
        { st with distance_hourly := upsert st.distance_hourly hour newRow })
    else m2
  let changed := decide (0 < s.pending_hour_visible_seconds) ||
    decide (0 < s.pending_hour_slouch_seconds) ||
    decide (0 < s.pending_hour_distance_count)
  if changed && auto_commit then doCommit m3 failAt else m3

/-- The `changed` result of `_flush_hourly_metrics` on its exception-free
path: whether any pending hourly buffer was nonempty. -/
def flushHourlyChanged (s : AggState) : Bool :=
  decide (0 < s.pending_hour_visible_seconds) ||
    decide (0 < s.pending_hour_slouch_seconds) ||
    decide (0 < s.pending_hour_distance_count)

/-- `_flush_hourly_metrics(hour_key, auto_commit)` (lines 2336-2381). An
exception anywhere skips the remaining operations *and* the buffer resets
and returns `changed = False` (the function's own `except`); the resets of
the flushed buffers run only on the exception-free path. -/
def flushHourly (s : AggState) (m : FlushM) (failAt : Option ℕ)
    (hour : String) (auto_commit : Bool) : AggState × FlushM × Bool :=
  let m4 := flushHourlyOps s m failAt hour auto_commit
  if m4.failed then (s, { m4 with failed := false }, false)
  else
    let s' := { s with
      pending_hour_visible_seconds :=
        if 0 < s.pending_hour_visible_seconds then 0
        else s.pending_hour_visible_seconds,
      pending_hour_slouch_seconds :=
        if 0 < s.pending_hour_slouch_seconds then 0
        else s.pending_hour_slouch_seconds,
      pending_hour_distance_sum :=
        if 0 < s.pending_hour_distance_count then 0
        else s.pending_hour_distance_sum,
      pending_hour_distance_count :=
        if 0 < s.pending_hour_distance_count then 0
        else s.pending_hour_distance_count }
    (s', m4, flushHourlyChanged s)

/-- Screen-time delta block of the daily flush (lines 2269-2278 / 4176-4184):
read-modify-write of today's `screen_time` row, then watermark advance;
skipped while an exception propagates, and the advance is skipped when one
of the block's own operations raises. -/
def dailyVisibleBlock (s : AggState) (m : FlushM) (failAt : Option ℕ)
    (today : String) (now : ℕ) : AggState × FlushM × Bool :=
  if m.failed then (s, m, false)
  else
    let current_visible := totalVisible s now
    let diff_visible := current_visible - s.saved_visible_seconds
    if 0 < diff_visible then
      let r := doRead m failAt (fun st => (st.screen_time today).getD 0) 0
      let mB := doWrite r.1 failAt (fun st =>
        { st with screen_time := upsert st.screen_time today (r.2 + diff_visible) })
      if mB.failed then (s, mB, false)
      else ({ s with saved_visible_seconds := current_visible }, mB, true)
    else (s, m, false)

/-- Posture-time delta block (lines 2279-2289 / 4185-4194). -/
def dailySlouchBlock (s : AggState) (m : FlushM) (failAt : Option ℕ)
    (today : String) (now : ℕ) : AggState × FlushM × Bool :=
  if m.failed then (s, m, false)
  else
    let current_slouch := totalSlouch s now
    let diff_slouch := current_slouch - s.saved_slouch_seconds
    if 0 < diff_slouch then
      let r := doRead m failAt (fun st => (st.posture_time today).getD 0) 0
      let mB := doWrite r.1 failAt (fun st =>
        { st with posture_time := upsert st.posture_time today (r.2 + diff_slouch) })
      if mB.failed then (s, mB, false)
      else ({ s with saved_slouch_seconds := current_slouch }, mB, true)
    else (s, m, false)

/-- Daily distance merge block (lines 2290-2307 / 4195-4210): weighted merge
of the pending sum/count into today's `distance_log` row, then zeroing of
the pending daily buffers. -/
def dailyDistanceBlock (s : AggState) (m : FlushM) (failAt : Option ℕ)
    (today : String) (enable_distance : Bool) : AggState × FlushM × Bool :=
  if m.failed then (s, m, false)
  else if enable_distance && 0 < s.pending_distance_count then
    let r := doRead m failAt (fun st => (st.distance_log today).getD (0, 0)) (0, 0)
    let old_avg := r.2.1
    let old_count := r.2.2
    let new_total_sum := old_avg * old_count + s.pending_distance_sum
    let new_total_count := old_count + s.pending_distance_count
    let new_avg := mergeAvg old_avg old_count s.pending_distance_sum
      s.pending_distance_count
    let mB := doWrite r.1 failAt (fun st =>
      { st with distance_log :=
          upsert st.distance_log today (new_avg, new_total_count) })
    if mB.failed then (s, mB, false)
    else
      ({ s with distance_sum_total := new_total_sum,
                distance_count_total := new_total_count,
                pending_distance_sum := 0,
                pending_distance_count := 0 }, mB, true)
  else (s, m, false)

/-- The periodic save block of `_stats_worker` (lines 2263-2325) and,
identically, the daily part of `_on_close` (lines 4170-4215): screen-time
delta, posture-time delta, daily distance merge, hourly flush with the
commit deferred, then one `conn.commit` when anything changed. An
exception in a daily block propagates to the outer `except` (line 2324),
skipping everything after it; an exception inside the hourly helper is
caught there, so the final commit still runs for the daily changes.
`flushFinish` is the tail after the three daily blocks: the hourly flush
with deferred commit (skipped if an exception is propagating, because the
code reached the outer `except` before the call at line 2308), then the
single `conn.commit` when anything changed. -/
def flushFinish (r3 : AggState × FlushM × Bool) (cDaily : Bool)
    (failAt : Option ℕ) (hour : String) : AggState × DB :=
  let rH :=
    if r3.2.1.failed then (r3.1, r3.2.1, false)
    else flushHourly r3.1 r3.2.1 failAt hour false
  let changes_made := cDaily || r3.2.2 || rH.2.2
  let m5 :=
    if rH.2.1.failed then rH.2.1
    else if changes_made then doCommit rH.2.1 failAt
    else rH.2.1
  (rH.1, m5.toDB)

def flushDaily (s : AggState) (db : DB) (failAt : Option ℕ)
    (today hour : String) (enable_distance : Bool) (now : ℕ) :
    AggState × DB :=
  let r1 := dailyVisibleBlock s (FlushM.ofDB db) failAt today now
  let r2 := dailySlouchBlock r1.1 r1.2.1 failAt today now
  let r3 := dailyDistanceBlock r2.1 r2.2.1 failAt today enable_distance
  flushFinish r3 (r1.2.2 || r2.2.2) failAt hour

/-- `_on_close` (lines 4160-4215 and the final `conn.close()` at 4247): fold
the open visible and slouch segments, run the same daily flush, then close
the connection — discarding whatever the transaction had staged but not
committed. -/
def closeApp (s : AggState) (db : DB) (failAt : Option ℕ)
    (today hour : String) (enable_distance : Bool) (now : ℕ) :
    AggState × DB :=
  let sA := match s.visible_start with
    | some t0 =>
        { s with visible_seconds := s.visible_seconds + (now - t0),
                 visible_start := none }
    | none => s
  let sB := match sA.slouch_session_start with
    | some t0 =>
        { sA with slouch_accum_seconds := sA.slouch_accum_seconds + (now - t0),
                  slouch_session_start := none }
    | none => sA
  let r := flushDaily sB db failAt today hour enable_distance now
  (r.1, ⟨r.2.durable, r.2.durable⟩)

/-- `_execute_data_erase` (lines 1221-1261): delete every row of the seven
tables, commit, then zero the listed in-memory accumulators, buffers and
watermarks and clear the session buffer and the active-alert set. The
fields `visible_start`, `slouch_session_start`, `prev_total_visible` and
`prev_total_slouch` are not assigned by the source and keep their values. -/
def executeDataErase (s : AggState) (_db : DB) : AggState × DB :=
  let staged' : Store :=
    ⟨fun _ => none, fun _ => none, fun _ => none, fun _ => none,
     fun _ => none, fun _ => none, []⟩
  let db' : DB := ⟨staged', staged'⟩
  let s' := { s with
    visible_seconds := 0,
    slouch_accum_seconds := 0,
    saved_visible_seconds := 0,
    saved_slouch_seconds := 0,
    pending_hour_visible_seconds := 0,
    pending_hour_slouch_seconds := 0,
    pending_hour_distance_sum := 0,
    pending_hour_distance_count := 0,
    pending_distance_sum := 0,
    pending_distance_count := 0,
    distance_sum_total := 0,
    distance_count_total := 0,
    distances_buffer := [],
    active_alerts := [] }
  (s', db')

/-- Events of an aggregator execution. `hourRollover` is the
`_flush_hourly_metrics(self.last_hour)` call on an hour-key change
(lines 1988-1990, `auto_commit = True`). -/
inductive Ev where
  | cycle (now : ℕ) (vis : Bool) (pos : Option Bool) (sample : Option ℚ)
  | flush (now : ℕ) (hour : String) (failAt : Option ℕ)
  | hourRollover (hour : String) (failAt : Option ℕ)
  | erase

/-- One event against the world `(state, connection)`. -/
def runEv (today : String) (w : AggState × DB) : Ev → AggState × DB
  | .cycle now vis pos sample => (cycle w.1 now vis pos sample, w.2)
  | .flush now hour failAt => flushDaily w.1 w.2 failAt today hour true now
  | .hourRollover hour failAt =>
      let r := flushHourly w.1 (FlushM.ofDB w.2) failAt hour true
      (r.1, r.2.1.toDB)
  | .erase => executeDataErase w.1 w.2

/-- A whole execution from an initial world. -/
def runEvents (today : String) (w : AggState × DB) (tr : List Ev) :
    AggState × DB :=
  tr.foldl (runEv today) w

/-- **C2 (code bug).** A periodic flush whose `conn.commit` raises does
*not* leave the pending buffers unchanged. Starting from a state whose only
pending delta is `pending_hour_visible_seconds = 5`, the flush stages the
hourly write, zeroes the pending hourly buffer, and then fails at the
commit (the third storage operation, index 2): afterwards the buffer is `0`
while the durable store still has no `screen_hourly` row, so the next flush
has nothing to retry; a subsequent clean shutdown with no new activity
commits nothing and closes the connection, and the 5-second delta is lost
for good. -/
theorem flush_commit_failure_drops_pending_delta :
    (flushDaily { initAgg with pending_hour_visible_seconds := 5 }
        initDB (some 2) "D" "H" true 0).1.pending_hour_visible_seconds = 0 ∧
    ((flushDaily { initAgg with pending_hour_visible_seconds := 5 }
        initDB (some 2) "D" "H" true 0).2.durable.screen_hourly "H" = none) ∧
    ((closeApp
        (flushDaily { initAgg with pending_hour_visible_seconds := 5 }
          initDB (some 2) "D" "H" true 0).1
        (flushDaily { initAgg with pending_hour_visible_seconds := 5 }
          initDB (some 2) "D" "H" true 0).2
        none "D" "H" true 0).2.durable.screen_hourly "H" = none) := by
  refine ⟨rfl, rfl, rfl⟩

/-! ### Traces, reference semantics and invariants (C3, C4, C10) -/

/-- Timed events occur at nondecreasing instants, starting no earlier than
`lo` (the statistics loop reads a monotone `time.time()`). -/
def timesOkFrom : ℕ → List Ev → Bool
  | _, [] => true
  | lo, Ev.cycle now _ _ _ :: tr => decide (lo ≤ now) && timesOkFrom now tr
  | lo, Ev.flush now _ _ :: tr => decide (lo ≤ now) && timesOkFrom now tr
  | lo, Ev.hourRollover _ _ :: tr => timesOkFrom lo tr
  | lo, Ev.erase :: tr => timesOkFrom lo tr

/-- The instant of the last timed event (or the lower bound for a trace
without one). -/
def lastTime : ℕ → List Ev → ℕ
  | lo, [] => lo
  | _, Ev.cycle now _ _ _ :: tr => lastTime now tr
  | _, Ev.flush now _ _ :: tr => lastTime now tr
  | lo, Ev.hourRollover _ _ :: tr => lastTime lo tr
  | lo, Ev.erase :: tr => lastTime lo tr

/-- Every storage operation of the trace succeeds. -/
def noFail : List Ev → Bool
  | [] => true
  | Ev.flush _ _ failAt :: tr => failAt.isNone && noFail tr
  | Ev.hourRollover _ failAt :: tr => failAt.isNone && noFail tr
  | _ :: tr => noFail tr

/-- The trace contains no data erase. -/
def noErase : List Ev → Bool
  | [] => true
  | Ev.erase :: _ => false
  | _ :: tr => noErase tr

/-- The (time, visibility) samples of the trace's detection cycles. -/
def cyclesOf : List Ev → List (ℕ × Bool)
  | [] => []
  | Ev.cycle now vis _ _ :: tr => (now, vis) :: cyclesOf tr
  | _ :: tr => cyclesOf tr

/-- Reference step for the visible-time accumulator: a visible sample opens
the segment at its instant (keeping an already-open start), an invisible
sample folds the open segment's duration. -/
def specStep : ℕ × Option ℕ → ℕ × Bool → ℕ × Option ℕ
  | (a, st), (t, vis) =>
      if vis then (a, some (st.getD t))
      else
        match st with
        | some t0 => (a + (t - t0), none)
        | none => (a, none)

/-- Reference accumulator over a sample list. -/
def specVisPair (p : ℕ × Option ℕ) (cs : List (ℕ × Bool)) : ℕ × Option ℕ :=
  cs.foldl specStep p

/-- The reference total at shutdown instant `T`: the folded durations plus
the still-open segment cut off at `T`. -/
def specVisTotalClose (cs : List (ℕ × Bool)) (T : ℕ) : ℕ :=
  match specVisPair (0, none) cs with
  | (a, some t0) => a + (T - t0)
  | (a, none) => a

/-- The visible-time pair of a state. -/
def vp (s : AggState) : ℕ × Option ℕ := (s.visible_seconds, s.visible_start)

lemma cycleVis_vp (s : AggState) (now : ℕ) (vis : Bool) :
    vp (cycleVis s now vis) = specStep (vp s) (now, vis) := by
  unfold cycleVis specStep vp
  cases vis with
  | true => cases hv : s.visible_start <;> simp [hv]
  | false =>
      cases hs : s.slouch_session_start <;> cases hv : s.visible_start <;>
        simp [hs, hv]

lemma cyclePendingVisible_core (s : AggState) (now : ℕ) :
    vp (cyclePendingVisible s now) = vp s ∧
    (cyclePendingVisible s now).slouch_accum_seconds = s.slouch_accum_seconds ∧
    (cyclePendingVisible s now).slouch_session_start = s.slouch_session_start ∧
    (cyclePendingVisible s now).saved_visible_seconds = s.saved_visible_seconds ∧
    (cyclePendingVisible s now).saved_slouch_seconds = s.saved_slouch_seconds := by
  simp only [cyclePendingVisible, vp]
  split <;> simp

lemma cyclePendingSlouch_core (s : AggState) (now : ℕ) :
    vp (cyclePendingSlouch s now) = vp s ∧
    (cyclePendingSlouch s now).slouch_accum_seconds = s.slouch_accum_seconds ∧
    (cyclePendingSlouch s now).slouch_session_start = s.slouch_session_start ∧
    (cyclePendingSlouch s now).saved_visible_seconds = s.saved_visible_seconds ∧
    (cyclePendingSlouch s now).saved_slouch_seconds = s.saved_slouch_seconds := by
  simp only [cyclePendingSlouch, vp]
  split <;> simp

lemma cyclePosture_core (s : AggState) (now : ℕ) (pos : Option Bool) :
    vp (cyclePosture s now pos) = vp s ∧
    totalSlouch (cyclePosture s now pos) now = totalSlouch s now ∧
    (cyclePosture s now pos).saved_visible_seconds = s.saved_visible_seconds ∧
    (cyclePosture s now pos).saved_slouch_seconds = s.saved_slouch_seconds := by
  unfold cyclePosture totalSlouch vp
  rcases pos with _ | b
  · simp
  · cases b <;> cases hs : s.slouch_session_start <;> simp [hs]

lemma cycleSample_core (s : AggState) (sample : Option ℚ) :
    vp (cycleSample s sample) = vp s ∧
    (cycleSample s sample).slouch_accum_seconds = s.slouch_accum_seconds ∧
    (cycleSample s sample).slouch_session_start = s.slouch_session_start ∧
    (cycleSample s sample).saved_visible_seconds = s.saved_visible_seconds ∧
    (cycleSample s sample).saved_slouch_seconds = s.saved_slouch_seconds := by
  unfold cycleSample vp
  rcases sample with _ | d <;> simp

lemma cycleVis_slouch (s : AggState) (now : ℕ) (vis : Bool) :
    totalSlouch (cycleVis s now vis) now = totalSlouch s now ∧
    (cycleVis s now vis).saved_visible_seconds = s.saved_visible_seconds ∧
    (cycleVis s now vis).saved_slouch_seconds = s.saved_slouch_seconds := by
  unfold cycleVis totalSlouch
  cases vis with
  | true => cases s.visible_start <;> simp
  | false =>
      cases hs : s.slouch_session_start <;> cases hv : s.visible_start <;>
        simp [hs, hv]

/-- A cycle leaves the visible-time pair exactly as the reference step
dictates, preserves both running totals at its own instant, and never
touches the watermarks. -/
lemma cycle_core (s : AggState) (now : ℕ) (vis : Bool) (pos : Option Bool)
    (sample : Option ℚ) :
    vp (cycle s now vis pos sample) = specStep (vp s) (now, vis) ∧
    totalSlouch (cycle s now vis pos sample) now = totalSlouch s now ∧
    (cycle s now vis pos sample).saved_visible_seconds = s.saved_visible_seconds ∧
    (cycle s now vis pos sample).saved_slouch_seconds = s.saved_slouch_seconds := by
  unfold cycle
  have h1 := cycleVis_vp s now vis
  have h1s := cycleVis_slouch s now vis
  have h2 := cyclePendingVisible_core (cycleVis s now vis) now
  have h3 := cyclePendingSlouch_core (cyclePendingVisible (cycleVis s now vis) now) now
  have h4 := cyclePosture_core
    (cyclePendingSlouch (cyclePendingVisible (cycleVis s now vis) now) now) now
    (if vis then pos else none)
  have h5 := cycleSample_core
    (cyclePosture (cyclePendingSlouch (cyclePendingVisible (cycleVis s now vis) now) now)
      now (if vis then pos else none)) sample
  have hts : ∀ s' s'' : AggState,
      s'.slouch_accum_seconds = s''.slouch_accum_seconds →
      s'.slouch_session_start = s''.slouch_session_start →
      totalSlouch s' now = totalSlouch s'' now := by
    intro s' s'' ha hb
    unfold totalSlouch
    rw [ha, hb]
  refine ⟨?_, ?_, ?_, ?_⟩
  · rw [h5.1, h4.1, h3.1, h2.1, h1]
  · rw [hts _ _ h5.2.1 h5.2.2.1, h4.2.1,
      hts _ _ h3.2.1 h3.2.2.1, hts _ _ h2.2.1 h2.2.2.1, h1s.1]
  · rw [h5.2.2.2.1, h4.2.2.1, h3.2.2.2.1, h2.2.2.2.1, h1s.2.1]
  · rw [h5.2.2.2.2, h4.2.2.2, h3.2.2.2.2, h2.2.2.2.2, h1s.2.2]

/-- `totalVisible` is determined by the visible pair. -/
lemma totalVisible_vp (s s' : AggState) (h : vp s' = vp s) (t : ℕ) :
    totalVisible s' t = totalVisible s t := by
  unfold totalVisible
  unfold vp at h
  injection h with h1 h2
  rw [h1, h2]

/-- A visible-pair step never loses accumulated total: the total at the step
instant is preserved. -/
lemma specStep_total (a : ℕ) (st : Option ℕ) (now : ℕ) (vis : Bool) :
    (specStep (a, st) (now, vis)).1 +
      (match (specStep (a, st) (now, vis)).2 with
        | some t0 => now - t0
        | none => 0) =
    a + (match st with | some t0 => now - t0 | none => 0) := by
  unfold specStep
  cases vis <;> rcases st with _ | t0 <;> simp

/-- `totalVisible` and `totalSlouch` are monotone in the instant. -/
lemma totalVisible_mono (s : AggState) {t t' : ℕ} (h : t ≤ t') :
    totalVisible s t ≤ totalVisible s t' := by
  unfold totalVisible
  rcases s.visible_start with _ | t0
  · simp
  · exact Nat.add_le_add_left (Nat.sub_le_sub_right h t0) _

lemma totalSlouch_mono (s : AggState) {t t' : ℕ} (h : t ≤ t') :
    totalSlouch s t ≤ totalSlouch s t' := by
  unfold totalSlouch
  rcases s.slouch_session_start with _ | t0
  · simp
  · exact Nat.add_le_add_left (Nat.sub_le_sub_right h t0) _

/-- **Watermark invariant** of C3. -/
def WmInv (s : AggState) (t : ℕ) : Prop :=
  s.saved_visible_seconds ≤ totalVisible s t ∧
  s.saved_slouch_seconds ≤ totalSlouch s t

lemma WmInv.mono {s : AggState} {t t' : ℕ} (h : WmInv s t) (hle : t ≤ t') :
    WmInv s t' :=
  ⟨h.1.trans (totalVisible_mono s hle), h.2.trans (totalSlouch_mono s hle)⟩

/-- The running visible total is unchanged by a cycle, measured at the
cycle's own instant. -/
lemma cycle_totalVisible (s : AggState) (now : ℕ) (vis : Bool)
    (pos : Option Bool) (sample : Option ℚ) :
    totalVisible (cycle s now vis pos sample) now = totalVisible s now := by
  have hc := (cycle_core s now vis pos sample).1
  have e1 : (cycle s now vis pos sample).visible_seconds =
      (specStep (vp s) (now, vis)).1 := by rw [← hc]; rfl
  have e2 : (cycle s now vis pos sample).visible_start =
      (specStep (vp s) (now, vis)).2 := by rw [← hc]; rfl
  have h1 : totalVisible (cycle s now vis pos sample) now =
      (specStep (vp s) (now, vis)).1 +
        (match (specStep (vp s) (now, vis)).2 with
          | some t0 => now - t0
          | none => 0) := by
    unfold totalVisible
    rw [e1, e2]
  rw [h1]
  exact (specStep_total s.visible_seconds s.visible_start now vis).trans
    (by unfold totalVisible; rfl)

lemma WmInv_cycle {s : AggState} {t now : ℕ} (h : WmInv s t) (hle : t ≤ now)
    (vis : Bool) (pos : Option Bool) (sample : Option ℚ) :
    WmInv (cycle s now vis pos sample) now := by
  have hc := cycle_core s now vis pos sample
  constructor
  · rw [hc.2.2.1, cycle_totalVisible s now vis pos sample]
    exact h.1.trans (totalVisible_mono s hle)
  · rw [hc.2.2.2, hc.2.1]
    exact h.2.trans (totalSlouch_mono s hle)

/-- The slouch pair of a state. -/
def sp (s : AggState) : ℕ × Option ℕ := (s.slouch_accum_seconds, s.slouch_session_start)

lemma totalSlouch_sp (s s' : AggState) (h : sp s' = sp s) (t : ℕ) :
    totalSlouch s' t = totalSlouch s t := by
  unfold totalSlouch
  unfold sp at h
  injection h with h1 h2
  rw [h1, h2]

/-- The screen-time block changes at most the visible watermark, and then
only to the running total of its own instant. -/
lemma dailyVisibleBlock_state (s : AggState) (m : FlushM) (failAt : Option ℕ)
    (today : String) (now : ℕ) :
    (dailyVisibleBlock s m failAt today now).1 = s ∨
    (dailyVisibleBlock s m failAt today now).1 =
      { s with saved_visible_seconds := totalVisible s now } := by
  simp only [dailyVisibleBlock]
  split
  · exact Or.inl rfl
  · split
    · split
      · exact Or.inl rfl
      · exact Or.inr rfl
    · exact Or.inl rfl

/-- The posture-time block changes at most the slouch watermark. -/
lemma dailySlouchBlock_state (s : AggState) (m : FlushM) (failAt : Option ℕ)
    (today : String) (now : ℕ) :
    (dailySlouchBlock s m failAt today now).1 = s ∨
    (dailySlouchBlock s m failAt today now).1 =
      { s with saved_slouch_seconds := totalSlouch s now } := by
  simp only [dailySlouchBlock]
  split
  · exact Or.inl rfl
  · split
    · split
      · exact Or.inl rfl
      · exact Or.inr rfl
    · exact Or.inl rfl

/-- The distance block never touches the time accumulators, watermarks, or
hourly pending buffers. -/
lemma dailyDistanceBlock_state (s : AggState) (m : FlushM) (failAt : Option ℕ)
    (today : String) (ed : Bool) :
    vp (dailyDistanceBlock s m failAt today ed).1 = vp s ∧
    sp (dailyDistanceBlock s m failAt today ed).1 = sp s ∧
    (dailyDistanceBlock s m failAt today ed).1.saved_visible_seconds =
      s.saved_visible_seconds ∧
    (dailyDistanceBlock s m failAt today ed).1.saved_slouch_seconds =
      s.saved_slouch_seconds ∧
    (dailyDistanceBlock s m failAt today ed).1.pending_hour_visible_seconds =
      s.pending_hour_visible_seconds ∧
    (dailyDistanceBlock s m failAt today ed).1.pending_hour_slouch_seconds =
      s.pending_hour_slouch_seconds ∧
    (dailyDistanceBlock s m failAt today ed).1.pending_hour_distance_count =
      s.pending_hour_distance_count := by
  simp only [dailyDistanceBlock, vp, sp]
  split
  · simp
  · split
    · split <;> simp
    · simp

/-- The hourly flush changes at most the hourly pending buffers. -/
lemma flushHourly_state (s : AggState) (m : FlushM) (failAt : Option ℕ)
    (hour : String) (ac : Bool) :
    vp (flushHourly s m failAt hour ac).1 = vp s ∧
    sp (flushHourly s m failAt hour ac).1 = sp s ∧
    (flushHourly s m failAt hour ac).1.saved_visible_seconds =
      s.saved_visible_seconds ∧
    (flushHourly s m failAt hour ac).1.saved_slouch_seconds =
      s.saved_slouch_seconds ∧
    (flushHourly s m failAt hour ac).1.pending_distance_count =
      s.pending_distance_count ∧
    (flushHourly s m failAt hour ac).1.pending_distance_sum =
      s.pending_distance_sum := by
  simp only [flushHourly, vp, sp]
  split <;> simp

/-- Bundle of the state effects of a whole daily flush, valid for any
failure point: the accumulators are untouched and each watermark either
keeps its value or advances to the running total of the flush instant. -/
lemma flushDaily_state (s : AggState) (db : DB) (failAt : Option ℕ)
    (today hour : String) (ed : Bool) (now : ℕ) :
    vp (flushDaily s db failAt today hour ed now).1 = vp s ∧
    sp (flushDaily s db failAt today hour ed now).1 = sp s ∧
    ((flushDaily s db failAt today hour ed now).1.saved_visible_seconds =
        s.saved_visible_seconds ∨
     (flushDaily s db failAt today hour ed now).1.saved_visible_seconds =
        totalVisible s now) ∧
    ((flushDaily s db failAt today hour ed now).1.saved_slouch_seconds =
        s.saved_slouch_seconds ∨
     (flushDaily s db failAt today hour ed now).1.saved_slouch_seconds =
        totalSlouch s now) := by
  simp only [flushDaily, flushFinish]
  set r1 := dailyVisibleBlock s (FlushM.ofDB db) failAt today now with hr1
  set r2 := dailySlouchBlock r1.1 r1.2.1 failAt today now with hr2
  set r3 := dailyDistanceBlock r2.1 r2.2.1 failAt today ed with hr3
  have h1 := dailyVisibleBlock_state s (FlushM.ofDB db) failAt today now
  have h2 := dailySlouchBlock_state r1.1 r1.2.1 failAt today now
  have h3 := dailyDistanceBlock_state r2.1 r2.2.1 failAt today ed
  rw [← hr1] at h1
  rw [← hr2] at h2
  rw [← hr3] at h3
  have hstep1 : vp r1.1 = vp s ∧ sp r1.1 = sp s ∧
      (r1.1.saved_visible_seconds = s.saved_visible_seconds ∨
       r1.1.saved_visible_seconds = totalVisible s now) ∧
      r1.1.saved_slouch_seconds = s.saved_slouch_seconds := by
    rcases h1 with h | h <;> rw [h]
    · exact ⟨rfl, rfl, Or.inl rfl, rfl⟩
    · exact ⟨rfl, rfl, Or.inr rfl, rfl⟩
  have hts : totalSlouch r1.1 now = totalSlouch s now :=
    totalSlouch_sp _ _ hstep1.2.1 now
  have hstep2 : vp r2.1 = vp s ∧ sp r2.1 = sp s ∧
      (r2.1.saved_visible_seconds = s.saved_visible_seconds ∨
       r2.1.saved_visible_seconds = totalVisible s now) ∧
      (r2.1.saved_slouch_seconds = s.saved_slouch_seconds ∨
       r2.1.saved_slouch_seconds = totalSlouch s now) := by
    rcases h2 with h | h <;> rw [h]
    · exact ⟨hstep1.1, hstep1.2.1, hstep1.2.2.1, Or.inl hstep1.2.2.2⟩
    · refine ⟨hstep1.1, hstep1.2.1, hstep1.2.2.1, Or.inr ?_⟩
      rw [← hts]
  have hstep3 : vp r3.1 = vp s ∧ sp r3.1 = sp s ∧
      (r3.1.saved_visible_seconds = s.saved_visible_seconds ∨
       r3.1.saved_visible_seconds = totalVisible s now) ∧
      (r3.1.saved_slouch_seconds = s.saved_slouch_seconds ∨
       r3.1.saved_slouch_seconds = totalSlouch s now) := by
    refine ⟨h3.1.trans hstep2.1, h3.2.1.trans hstep2.2.1, ?_, ?_⟩
    · rw [h3.2.2.1]; exact hstep2.2.2.1
    · rw [h3.2.2.2.1]; exact hstep2.2.2.2
  split
  · exact hstep3
  · have h4 := flushHourly_state r3.1 r3.2.1 failAt hour false
    refine ⟨h4.1.trans hstep3.1, h4.2.1.trans hstep3.2.1, ?_, ?_⟩
    · rw [h4.2.2.1]; exact hstep3.2.2.1
    · rw [h4.2.2.2.1]; exact hstep3.2.2.2

lemma WmInv_flushDaily {s : AggState} {t now : ℕ} (h : WmInv s t) (hle : t ≤ now)
    (db : DB) (failAt : Option ℕ) (today hour : String) (ed : Bool) :
    WmInv (flushDaily s db failAt today hour ed now).1 now := by
  have hs := flushDaily_state s db failAt today hour ed now
  have hv := totalVisible_vp s _ hs.1 now
  have hsl := totalSlouch_sp s _ hs.2.1 now
  constructor
  · rw [hv]
    rcases hs.2.2.1 with he | he
    · rw [he]; exact h.1.trans (totalVisible_mono s hle)
    · rw [he]
  · rw [hsl]
    rcases hs.2.2.2 with he | he
    · rw [he]; exact h.2.trans (totalSlouch_mono s hle)
    · rw [he]

lemma WmInv_flushHourly {s : AggState} {t : ℕ} (h : WmInv s t)
    (m : FlushM) (failAt : Option ℕ) (hour : String) (ac : Bool) :
    WmInv (flushHourly s m failAt hour ac).1 t := by
  have hs := flushHourly_state s m failAt hour ac
  have hv := totalVisible_vp s _ hs.1 t
  have hsl := totalSlouch_sp s _ hs.2.1 t
  exact ⟨by rw [hv, hs.2.2.1]; exact h.1, by rw [hsl, hs.2.2.2.1]; exact h.2⟩

lemma WmInv_erase (s : AggState) (db : DB) (t : ℕ) :
    WmInv (executeDataErase s db).1 t := by
  constructor
  · show (0 : ℕ) ≤ _
    exact Nat.zero_le _
  · show (0 : ℕ) ≤ _
    exact Nat.zero_le _

/-- The C3 watermark invariant holds after every wellformed trace. -/
lemma WmInv_runEvents (today : String) (tr : List Ev) :
    ∀ (w : AggState × DB) (t : ℕ), WmInv w.1 t → timesOkFrom t tr = true →
      WmInv (runEvents today w tr).1 (lastTime t tr) := by
  induction tr with
  | nil => intro w t h _; exact h
  | cons e tr ih =>
      intro w t h hok
      cases e with
      | cycle now vis pos sample =>
          simp only [timesOkFrom, Bool.and_eq_true, decide_eq_true_eq] at hok
          exact ih _ now (WmInv_cycle h hok.1 vis pos sample) hok.2
      | flush now hour failAt =>
          simp only [timesOkFrom, Bool.and_eq_true, decide_eq_true_eq] at hok
          exact ih _ now (WmInv_flushDaily h hok.1 w.2 failAt today hour true) hok.2
      | hourRollover hour failAt =>
          simp only [timesOkFrom] at hok
          exact ih _ t (WmInv_flushHourly h _ failAt hour true) hok
      | erase =>
          simp only [timesOkFrom] at hok
          exact ih _ t (WmInv_erase w.1 w.2 t) hok

lemma upsert_getD {α : Type} (tbl : String → Option α) (key : String) (v : α)
    (d : α) : ((upsert tbl key v) key).getD d = v := by
  simp [upsert]

lemma doRead_none {α : Type} (m : FlushM) (f : Store → α) (d : α)
    (hf : m.failed = false) :
    doRead m none f d = ({ m with k := m.k + 1 }, f m.staged) := by
  simp [doRead, hf]

lemma doWrite_none (m : FlushM) (w : Store → Store) (hf : m.failed = false) :
    doWrite m none w = { m with k := m.k + 1, staged := w m.staged } := by
  simp [doWrite, hf]

lemma doCommit_none (m : FlushM) (hf : m.failed = false) :
    doCommit m none = { m with k := m.k + 1, durable := m.staged } := by
  simp [doCommit, hf]

/-- Exact behavior of the screen-time block when no storage operation
fails. -/
lemma dailyVisibleBlock_none (s : AggState) (m : FlushM) (today : String)
    (now : ℕ) (hf : m.failed = false) :
    (dailyVisibleBlock s m none today now).1 =
      (if 0 < totalVisible s now - s.saved_visible_seconds then
        { s with saved_visible_seconds := totalVisible s now } else s) ∧
    (dailyVisibleBlock s m none today now).2.1.failed = false ∧
    (dailyVisibleBlock s m none today now).2.1.durable = m.durable ∧
    ((dailyVisibleBlock s m none today now).2.1.staged.screen_time today).getD 0 =
      (m.staged.screen_time today).getD 0 +
        (totalVisible s now - s.saved_visible_seconds) ∧
    (dailyVisibleBlock s m none today now).2.1.staged.posture_time =
      m.staged.posture_time ∧
    (dailyVisibleBlock s m none today now).2.1.staged.distance_log =
      m.staged.distance_log ∧
    (dailyVisibleBlock s m none today now).2.1.staged.screen_hourly =
      m.staged.screen_hourly ∧
    (dailyVisibleBlock s m none today now).2.1.staged.posture_hourly =
      m.staged.posture_hourly ∧
    (dailyVisibleBlock s m none today now).2.1.staged.distance_hourly =
      m.staged.distance_hourly := by
  simp only [dailyVisibleBlock, hf, Bool.false_eq_true, if_false]
  split
  · rw [doRead_none _ _ _ hf, doWrite_none _ _ (by simpa using hf)]
    simp [upsert_getD, hf]
  · simp only [hf, Bool.false_eq_true, if_false]
    have hz : totalVisible s now - s.saved_visible_seconds = 0 := by omega
    simp [hz]

/-- Exact behavior of the posture-time block when no storage operation
fails. -/
lemma dailySlouchBlock_none (s : AggState) (m : FlushM) (today : String)
    (now : ℕ) (hf : m.failed = false) :
    (dailySlouchBlock s m none today now).1 =
      (if 0 < totalSlouch s now - s.saved_slouch_seconds then
        { s with saved_slouch_seconds := totalSlouch s now } else s) ∧
    (dailySlouchBlock s m none today now).2.1.failed = false ∧
    (dailySlouchBlock s m none today now).2.1.durable = m.durable ∧
    ((dailySlouchBlock s m none today now).2.1.staged.posture_time today).getD 0 =
      (m.staged.posture_time today).getD 0 +
        (totalSlouch s now - s.saved_slouch_seconds) ∧
    (dailySlouchBlock s m none today now).2.1.staged.screen_time =
      m.staged.screen_time ∧
    (dailySlouchBlock s m none today now).2.1.staged.distance_log =
      m.staged.distance_log ∧
    (dailySlouchBlock s m none today now).2.1.staged.screen_hourly =
      m.staged.screen_hourly ∧
    (dailySlouchBlock s m none today now).2.1.staged.posture_hourly =
      m.staged.posture_hourly ∧
    (dailySlouchBlock s m none today now).2.1.staged.distance_hourly =
      m.staged.distance_hourly := by
  simp only [dailySlouchBlock, hf, Bool.false_eq_true, if_false]
  split
  · rw [doRead_none _ _ _ hf, doWrite_none _ _ (by simpa using hf)]
    simp [upsert_getD, hf]
  · simp only [hf, Bool.false_eq_true, if_false]
    have hz : totalSlouch s now - s.saved_slouch_seconds = 0 := by omega
    simp [hz]

/-- Exact behavior of the distance block when no storage operation fails:
afterwards there is never a pending daily distance delta left to merge. -/
lemma dailyDistanceBlock_none (s : AggState) (m : FlushM) (today : String)
    (ed : Bool) (hf : m.failed = false) :
    (dailyDistanceBlock s m none today ed).2.1.failed = false ∧
    (dailyDistanceBlock s m none today ed).2.1.durable = m.durable ∧
    (ed && decide (0 < (dailyDistanceBlock s m none today ed).1.pending_distance_count)) = false ∧
    (dailyDistanceBlock s m none today ed).2.1.staged.screen_time =
      m.staged.screen_time ∧
    (dailyDistanceBlock s m none today ed).2.1.staged.posture_time =
      m.staged.posture_time ∧
    (dailyDistanceBlock s m none today ed).2.1.staged.screen_hourly =
      m.staged.screen_hourly ∧
    (dailyDistanceBlock s m none today ed).2.1.staged.posture_hourly =
      m.staged.posture_hourly ∧
    (dailyDistanceBlock s m none today ed).2.1.staged.distance_hourly =
      m.staged.distance_hourly := by
  simp only [dailyDistanceBlock, hf, Bool.false_eq_true, if_false]
  split
  · rename_i hg
    rw [doRead_none _ _ _ hf, doWrite_none _ _ (by simpa using hf)]
    simp [hf]
  · rename_i hg
    refine ⟨hf, rfl, ?_, rfl, rfl, rfl, rfl, rfl⟩
    cases he : ed with
    | false => simp
    | true =>
        subst he
        simp only [Bool.true_and] at hg ⊢
        simpa using hg

/-- With no failure the hourly storage operations keep the flush alive, and
(under the deferred commit) touch neither the daily tables nor the durable
store. -/
lemma flushHourlyOps_none (s : AggState) (m : FlushM) (hour : String)
    (hf : m.failed = false) :
    (flushHourlyOps s m none hour false).failed = false ∧
    (flushHourlyOps s m none hour false).durable = m.durable ∧
    (flushHourlyOps s m none hour false).staged.screen_time =
      m.staged.screen_time ∧
    (flushHourlyOps s m none hour false).staged.posture_time =
      m.staged.posture_time ∧
    (flushHourlyOps s m none hour false).staged.distance_log =
      m.staged.distance_log := by
  simp only [flushHourlyOps, Bool.and_false, Bool.false_eq_true, if_false]
  split_ifs <;> simp [doRead, doWrite, hf]

lemma flushHourly_none (s : AggState) (m : FlushM) (hour : String)
    (hf : m.failed = false) :
    (flushHourly s m none hour false).1.pending_hour_visible_seconds = 0 ∧
    (flushHourly s m none hour false).1.pending_hour_slouch_seconds = 0 ∧
    (flushHourly s m none hour false).1.pending_hour_distance_count = 0 ∧
    (flushHourly s m none hour false).2.1.failed = false ∧
    (flushHourly s m none hour false).2.1.durable = m.durable ∧
    (flushHourly s m none hour false).2.1.staged.screen_time =
      m.staged.screen_time ∧
    (flushHourly s m none hour false).2.1.staged.posture_time =
      m.staged.posture_time := by
  have hOps := flushHourlyOps_none s m hour hf
  have hsplit : flushHourly s m none hour false =
      ({ s with
          pending_hour_visible_seconds :=
            if 0 < s.pending_hour_visible_seconds then 0
            else s.pending_hour_visible_seconds,
          pending_hour_slouch_seconds :=
            if 0 < s.pending_hour_slouch_seconds then 0
            else s.pending_hour_slouch_seconds,
          pending_hour_distance_sum :=
            if 0 < s.pending_hour_distance_count then 0
            else s.pending_hour_distance_sum,
          pending_hour_distance_count :=
            if 0 < s.pending_hour_distance_count then 0
            else s.pending_hour_distance_count },
        flushHourlyOps s m none hour false, flushHourlyChanged s) := by
    simp only [flushHourly, hOps.1, Bool.false_eq_true, if_false]
  rw [hsplit]
  refine ⟨?_, ?_, ?_, hOps.1, hOps.2.1, hOps.2.2.1, hOps.2.2.2.1⟩
  · show (if 0 < s.pending_hour_visible_seconds then 0
      else s.pending_hour_visible_seconds) = 0
    split <;> omega
  · show (if 0 < s.pending_hour_slouch_seconds then 0
      else s.pending_hour_slouch_seconds) = 0
    split <;> omega
  · show (if 0 < s.pending_hour_distance_count then 0
      else s.pending_hour_distance_count) = 0
    split <;> omega

/-- State summary of a failure-free daily flush over abstract intermediate
results: accumulators untouched, each watermark raised to (the maximum
with) its running total, hourly pending buffers zeroed, and no daily
distance delta left pending. -/
lemma flushDaily_none_state_aux (today hour : String) (ed : Bool) (now : ℕ)
    (s : AggState) (m0 : FlushM) (hm0 : m0.failed = false)
    (r1 r2 r3 : AggState × FlushM × Bool)
    (e1 : r1 = dailyVisibleBlock s m0 none today now)
    (e2 : r2 = dailySlouchBlock r1.1 r1.2.1 none today now)
    (e3 : r3 = dailyDistanceBlock r2.1 r2.2.1 none today ed) :
    vp (flushFinish r3 (r1.2.2 || r2.2.2) none hour).1 = vp s ∧
    sp (flushFinish r3 (r1.2.2 || r2.2.2) none hour).1 = sp s ∧
    (flushFinish r3 (r1.2.2 || r2.2.2) none hour).1.saved_visible_seconds =
      max s.saved_visible_seconds (totalVisible s now) ∧
    (flushFinish r3 (r1.2.2 || r2.2.2) none hour).1.saved_slouch_seconds =
      max s.saved_slouch_seconds (totalSlouch s now) ∧
    (flushFinish r3 (r1.2.2 || r2.2.2) none hour).1.pending_hour_visible_seconds = 0 ∧
    (flushFinish r3 (r1.2.2 || r2.2.2) none hour).1.pending_hour_slouch_seconds = 0 ∧
    (flushFinish r3 (r1.2.2 || r2.2.2) none hour).1.pending_hour_distance_count = 0 ∧
    (ed && decide
      (0 < (flushFinish r3 (r1.2.2 || r2.2.2) none hour).1.pending_distance_count)) =
      false := by
  have h1 := dailyVisibleBlock_none s m0 today now hm0
  rw [← e1] at h1
  have h2 := dailySlouchBlock_none r1.1 r1.2.1 today now h1.2.1
  rw [← e2] at h2
  have h3 := dailyDistanceBlock_none r2.1 r2.2.1 today ed h2.2.1
  rw [← e3] at h3
  have h3s := dailyDistanceBlock_state r2.1 r2.2.1 none today ed
  rw [← e3] at h3s
  -- facts about the state after the screen-time block
  have hs1vp : vp r1.1 = vp s := by rw [h1.1]; split <;> rfl
  have hs1sp : sp r1.1 = sp s := by rw [h1.1]; split <;> rfl
  have hs1sv : r1.1.saved_visible_seconds =
      max s.saved_visible_seconds (totalVisible s now) := by
    rw [h1.1]; split <;> rename_i hc
    · show totalVisible s now = _
      omega
    · show s.saved_visible_seconds = _
      omega
  have hs1ss : r1.1.saved_slouch_seconds = s.saved_slouch_seconds := by
    rw [h1.1]; split <;> rfl
  have hs1pd : r1.1.pending_distance_count = s.pending_distance_count := by
    rw [h1.1]; split <;> rfl
  have hs1ts : totalSlouch r1.1 now = totalSlouch s now :=
    totalSlouch_sp _ _ hs1sp now
  -- facts about the state after the posture-time block
  have hs2vp : vp r2.1 = vp s := by
    rw [h2.1]; split
    · exact hs1vp
    · exact hs1vp
  have hs2sp : sp r2.1 = sp s := by
    rw [h2.1]; split
    · exact hs1sp
    · exact hs1sp
  have hs2sv : r2.1.saved_visible_seconds =
      max s.saved_visible_seconds (totalVisible s now) := by
    rw [h2.1]; split
    · exact hs1sv
    · exact hs1sv
  have hs2ss : r2.1.saved_slouch_seconds =
      max s.saved_slouch_seconds (totalSlouch s now) := by
    rw [h2.1]; split <;> rename_i hc
    · show totalSlouch r1.1 now = _
      rw [hs1ts]
      rw [hs1ts, hs1ss] at hc
      omega
    · show r1.1.saved_slouch_seconds = _
      rw [hs1ts, hs1ss] at hc
      rw [hs1ss]
      omega
  have hs2pd : r2.1.pending_distance_count = s.pending_distance_count := by
    rw [h2.1]; split
    · exact hs1pd
    · exact hs1pd
  -- facts about the state after the distance block
  have hs3vp : vp r3.1 = vp s := h3s.1.trans hs2vp
  have hs3sp : sp r3.1 = sp s := h3s.2.1.trans hs2sp
  have hs3sv : r3.1.saved_visible_seconds =
      max s.saved_visible_seconds (totalVisible s now) := by
    rw [h3s.2.2.1]; exact hs2sv
  have hs3ss : r3.1.saved_slouch_seconds =
      max s.saved_slouch_seconds (totalSlouch s now) := by
    rw [h3s.2.2.2.1]; exact hs2ss
  have hs3pd := h3.2.2.1
  -- the hourly flush
  simp only [flushFinish, h3.1, Bool.false_eq_true, if_false]
  have hH := flushHourly_none r3.1 r3.2.1 hour h3.1
  have hHs := flushHourly_state r3.1 r3.2.1 none hour false
  refine ⟨hHs.1.trans hs3vp, hHs.2.1.trans hs3sp, ?_, ?_, hH.1, hH.2.1,
    hH.2.2.1, ?_⟩
  · rw [hHs.2.2.1]; exact hs3sv
  · rw [hHs.2.2.2.1]; exact hs3ss
  · rw [hHs.2.2.2.2.1]; exact hs3pd

/-- State summary of a failure-free daily flush. -/
lemma flushDaily_none_state (s : AggState) (db : DB) (today hour : String)
    (ed : Bool) (now : ℕ) :
    vp (flushDaily s db none today hour ed now).1 = vp s ∧
    sp (flushDaily s db none today hour ed now).1 = sp s ∧
    (flushDaily s db none today hour ed now).1.saved_visible_seconds =
      max s.saved_visible_seconds (totalVisible s now) ∧
    (flushDaily s db none today hour ed now).1.saved_slouch_seconds =
      max s.saved_slouch_seconds (totalSlouch s now) ∧
    (flushDaily s db none today hour ed now).1.pending_hour_visible_seconds = 0 ∧
    (flushDaily s db none today hour ed now).1.pending_hour_slouch_seconds = 0 ∧
    (flushDaily s db none today hour ed now).1.pending_hour_distance_count = 0 ∧
    (ed && decide
      (0 < (flushDaily s db none today hour ed now).1.pending_distance_count)) =
      false :=
  flushDaily_none_state_aux today hour ed now s (FlushM.ofDB db) rfl
    _ _ _ rfl rfl rfl

/-- A failure-free flush with nothing to report is a complete no-op:
no storage operation writes, nothing commits, and neither the state nor
the connection changes. -/
lemma flushDaily_noop (s : AggState) (db : DB) (today hour : String)
    (ed : Bool) (now : ℕ)
    (h1 : totalVisible s now ≤ s.saved_visible_seconds)
    (h2 : totalSlouch s now ≤ s.saved_slouch_seconds)
    (h3 : (ed && decide (0 < s.pending_distance_count)) = false)
    (h4 : s.pending_hour_visible_seconds = 0)
    (h5 : s.pending_hour_slouch_seconds = 0)
    (h6 : s.pending_hour_distance_count = 0) :
    flushDaily s db none today hour ed now = (s, db) := by
  have hd1 : totalVisible s now - s.saved_visible_seconds = 0 := by omega
  have hd2 : totalSlouch s now - s.saved_slouch_seconds = 0 := by omega
  have hb1 : dailyVisibleBlock s (FlushM.ofDB db) none today now =
      (s, FlushM.ofDB db, false) := by
    simp [dailyVisibleBlock, FlushM.ofDB, hd1]
  have hb2 : dailySlouchBlock s (FlushM.ofDB db) none today now =
      (s, FlushM.ofDB db, false) := by
    simp [dailySlouchBlock, FlushM.ofDB, hd2]
  have hb3 : dailyDistanceBlock s (FlushM.ofDB db) none today ed =
      (s, FlushM.ofDB db, false) := by
    simp only [dailyDistanceBlock, FlushM.ofDB]
    simp [h3]
  have hOps : flushHourlyOps s (FlushM.ofDB db) none hour false =
      FlushM.ofDB db := by
    simp [flushHourlyOps, h4, h5, h6]
  have hH : flushHourly s (FlushM.ofDB db) none hour false =
      (s, FlushM.ofDB db, false) := by
    simp only [flushHourly]
    rw [hOps]
    simp only [FlushM.ofDB, Bool.false_eq_true, if_false]
    rcases s with ⟨f1, f2, f3, f4, f5, f6, f7, f8, f9, f10, f11, f12, f13,
      f14, f15, f16, f17, f18⟩
    simp only at h4 h5 h6
    subst h4; subst h5; subst h6
    simp [flushHourlyChanged]
  simp only [flushDaily, hb1, hb2, hb3, flushFinish]
  simp only [hH]
  simp [FlushM.ofDB, FlushM.toDB]

/-- **C3.** Along every wellformed execution the saved watermarks never
exceed the corresponding running totals (visible time and bad-posture
time), so the unsaved delta `max(0, total - watermark)` is well defined;
and a failure-free flush performed when no new accumulation has occurred
since the previous failure-free flush is a complete no-op — it writes
nothing to the store and changes neither the aggregator state nor the
connection. -/
theorem watermark_invariant_and_flush_idempotent
    (today hour : String) (tr : List Ev) (t : ℕ)
    (hok : timesOkFrom 0 tr = true) (ht : lastTime 0 tr ≤ t)
    (s : AggState) (db : DB) (ed : Bool) (now nowTwo : ℕ)
    (hv : totalVisible s nowTwo = totalVisible s now)
    (hsl : totalSlouch s nowTwo = totalSlouch s now) :
    WmInv (runEvents today (initAgg, initDB) tr).1 t ∧
    flushDaily (flushDaily s db none today hour ed now).1
        (flushDaily s db none today hour ed now).2 none today hour ed nowTwo =
      flushDaily s db none today hour ed now := by
  constructor
  · have h0 : WmInv initAgg 0 := ⟨Nat.zero_le _, Nat.zero_le _⟩
    exact (WmInv_runEvents today tr (initAgg, initDB) 0 h0 hok).mono ht
  · have hFS := flushDaily_none_state s db today hour ed now
    have hv1 : totalVisible (flushDaily s db none today hour ed now).1 nowTwo ≤
        (flushDaily s db none today hour ed now).1.saved_visible_seconds := by
      rw [totalVisible_vp s _ hFS.1 nowTwo, hFS.2.2.1, hv]
      exact le_max_right _ _
    have hv2 : totalSlouch (flushDaily s db none today hour ed now).1 nowTwo ≤
        (flushDaily s db none today hour ed now).1.saved_slouch_seconds := by
      rw [totalSlouch_sp s _ hFS.2.1 nowTwo, hFS.2.2.2.1, hsl]
      exact le_max_right _ _
    have hno := flushDaily_noop (flushDaily s db none today hour ed now).1
      (flushDaily s db none today hour ed now).2 today hour ed nowTwo
      hv1 hv2 hFS.2.2.2.2.2.2.2 hFS.2.2.2.2.1 hFS.2.2.2.2.2.1 hFS.2.2.2.2.2.2.1
    exact hno

/-- Witness for `watermark_invariant_and_flush_idempotent`: the concrete
trace (visible cycle at 0, flush at 4, face lost at 9) checked at
`t = 9`, and a repeated flush at instants 5 then 7 with no accumulation in
between. -/
theorem watermark_invariant_and_flush_idempotent_witness :
    WmInv (runEvents "D" (initAgg, initDB)
      [Ev.cycle 0 true none none, Ev.flush 4 "H" none,
       Ev.cycle 9 false none none]).1 9 ∧
    flushDaily (flushDaily initAgg initDB none "D" "H" true 5).1
        (flushDaily initAgg initDB none "D" "H" true 5).2 none "D" "H" true 7 =
      flushDaily initAgg initDB none "D" "H" true 5 :=
  watermark_invariant_and_flush_idempotent "D" "H"
    [Ev.cycle 0 true none none, Ev.flush 4 "H" none,
     Ev.cycle 9 false none none] 9 (by decide) (by decide)
    initAgg initDB true 5 7 rfl rfl

lemma dailyVisibleBlock_changedFlag (s : AggState) (m : FlushM)
    (today : String) (now : ℕ) (hf : m.failed = false) :
    (dailyVisibleBlock s m none today now).2.2 =
      decide (0 < totalVisible s now - s.saved_visible_seconds) := by
  simp only [dailyVisibleBlock, hf, Bool.false_eq_true, if_false]
  split <;> rename_i hc
  · rw [doRead_none _ _ _ hf, doWrite_none _ _ (by simpa using hf)]
    simp [hc, hf]
  · simp [hc]

lemma dailyVisibleBlock_nochange (s : AggState) (m : FlushM)
    (today : String) (now : ℕ) (hf : m.failed = false)
    (hc : ¬ 0 < totalVisible s now - s.saved_visible_seconds) :
    dailyVisibleBlock s m none today now = (s, m, false) := by
  simp [dailyVisibleBlock, hf, hc]

lemma dailySlouchBlock_changedFlag (s : AggState) (m : FlushM)
    (today : String) (now : ℕ) (hf : m.failed = false) :
    (dailySlouchBlock s m none today now).2.2 =
      decide (0 < totalSlouch s now - s.saved_slouch_seconds) := by
  simp only [dailySlouchBlock, hf, Bool.false_eq_true, if_false]
  split <;> rename_i hc
  · rw [doRead_none _ _ _ hf, doWrite_none _ _ (by simpa using hf)]
    simp [hc, hf]
  · simp [hc]

lemma dailySlouchBlock_nochange (s : AggState) (m : FlushM)
    (today : String) (now : ℕ) (hf : m.failed = false)
    (hc : ¬ 0 < totalSlouch s now - s.saved_slouch_seconds) :
    dailySlouchBlock s m none today now = (s, m, false) := by
  simp [dailySlouchBlock, hf, hc]

lemma dailyDistanceBlock_changedFlag (s : AggState) (m : FlushM)
    (today : String) (ed : Bool) (hf : m.failed = false) :
    (dailyDistanceBlock s m none today ed).2.2 =
      (ed && decide (0 < s.pending_distance_count)) := by
  simp only [dailyDistanceBlock, hf, Bool.false_eq_true, if_false]
  split <;> rename_i hc
  · rw [doRead_none _ _ _ hf, doWrite_none _ _ (by simpa using hf)]
    simp [hc, hf]
  · simp only [Bool.not_eq_true] at hc
    simp [hc]

lemma dailyDistanceBlock_nochange (s : AggState) (m : FlushM)
    (today : String) (ed : Bool) (hf : m.failed = false)
    (hc : (ed && decide (0 < s.pending_distance_count)) = false) :
    dailyDistanceBlock s m none today ed = (s, m, false) := by
  simp [dailyDistanceBlock, hf, hc]

/-- With no failure injected, the hourly storage operations never leave an
exception pending, never touch the daily tables, and either leave the
durable store alone or (after the auto commit) publish their staged
writes. -/
lemma flushHourlyOps_none_ac (s : AggState) (m : FlushM) (hour : String)
    (ac : Bool) (hf : m.failed = false) :
    (flushHourlyOps s m none hour ac).failed = false ∧
    (flushHourlyOps s m none hour ac).staged.screen_time =
      m.staged.screen_time ∧
    (flushHourlyOps s m none hour ac).staged.posture_time =
      m.staged.posture_time ∧
    (flushHourlyOps s m none hour ac).staged.distance_log =
      m.staged.distance_log ∧
    ((flushHourlyOps s m none hour ac).durable = m.durable ∨
     (flushHourlyOps s m none hour ac).durable =
       (flushHourlyOps s m none hour ac).staged) := by
  by_cases h1 : 0 < s.pending_hour_visible_seconds <;>
    by_cases h2 : 0 < s.pending_hour_slouch_seconds <;>
    by_cases h3 : 0 < s.pending_hour_distance_count <;>
    cases ac <;>
    simp [flushHourlyOps, doRead, doWrite, doCommit, hf, h1, h2, h3]

lemma flushHourlyOps_nochange (s : AggState) (m : FlushM) (hour : String)
    (ac : Bool) (hch : flushHourlyChanged s = false) :
    flushHourlyOps s m none hour ac = m := by
  simp only [flushHourlyChanged, Bool.or_eq_false_iff, decide_eq_false_iff_not] at hch
  simp [flushHourlyOps, hch.1.1, hch.1.2, hch.2]

lemma flushHourly_changedFlag (s : AggState) (m : FlushM) (hour : String)
    (ac : Bool) (hf : m.failed = false) :
    (flushHourly s m none hour ac).2.2 = flushHourlyChanged s ∧
    (flushHourly s m none hour ac).2.1 = flushHourlyOps s m none hour ac := by
  have hOps := (flushHourlyOps_none_ac s m hour ac hf).1
  simp only [flushHourly, hOps, Bool.false_eq_true, if_false]
  simp

lemma flushHourly_nochange (s : AggState) (m : FlushM) (hour : String)
    (ac : Bool) (hf : m.failed = false) (hch : flushHourlyChanged s = false) :
    flushHourly s m none hour ac = (s, m, false) := by
  have hg := hch
  simp only [flushHourlyChanged, Bool.or_eq_false_iff, decide_eq_false_iff_not] at hg
  simp only [flushHourly, flushHourlyOps_nochange s m hour ac hch, hf,
    Bool.false_eq_true, if_false]
  simp [hg.1.1, hg.1.2, hg.2, hch]

/-- Store summary of a failure-free daily flush over abstract intermediate
results: starting from a connection with no open transaction whose durable
daily rows mirror the watermarks, the flush leaves no open transaction and
the durable daily rows mirror the advanced watermarks. -/
lemma flushDaily_none_db_aux (today hour : String) (ed : Bool) (now : ℕ)
    (s : AggState) (m0 : FlushM) (hm0 : m0.failed = false)
    (hdb : m0.staged = m0.durable)
    (hv0 : (m0.durable.screen_time today).getD 0 = s.saved_visible_seconds)
    (hs0 : (m0.durable.posture_time today).getD 0 = s.saved_slouch_seconds)
    (r1 r2 r3 : AggState × FlushM × Bool)
    (e1 : r1 = dailyVisibleBlock s m0 none today now)
    (e2 : r2 = dailySlouchBlock r1.1 r1.2.1 none today now)
    (e3 : r3 = dailyDistanceBlock r2.1 r2.2.1 none today ed) :
    (flushFinish r3 (r1.2.2 || r2.2.2) none hour).2.staged =
      (flushFinish r3 (r1.2.2 || r2.2.2) none hour).2.durable ∧
    ((flushFinish r3 (r1.2.2 || r2.2.2) none hour).2.durable.screen_time
      today).getD 0 = max s.saved_visible_seconds (totalVisible s now) ∧
    ((flushFinish r3 (r1.2.2 || r2.2.2) none hour).2.durable.posture_time
      today).getD 0 = max s.saved_slouch_seconds (totalSlouch s now) := by
  have h1 := dailyVisibleBlock_none s m0 today now hm0
  rw [← e1] at h1
  have h2 := dailySlouchBlock_none r1.1 r1.2.1 today now h1.2.1
  rw [← e2] at h2
  have h3 := dailyDistanceBlock_none r2.1 r2.2.1 today ed h2.2.1
  rw [← e3] at h3
  have hs1sp : sp r1.1 = sp s := by rw [h1.1]; split <;> rfl
  have hs1ss : r1.1.saved_slouch_seconds = s.saved_slouch_seconds := by
    rw [h1.1]; split <;> rfl
  have hts : totalSlouch r1.1 now = totalSlouch s now :=
    totalSlouch_sp _ _ hs1sp now
  have hscr3 : (r3.2.1.staged.screen_time today).getD 0 =
      s.saved_visible_seconds +
        (totalVisible s now - s.saved_visible_seconds) := by
    rw [h3.2.2.2.1, h2.2.2.2.2.1, h1.2.2.2.1, hdb, hv0]
  have hpos3 : (r3.2.1.staged.posture_time today).getD 0 =
      s.saved_slouch_seconds +
        (totalSlouch s now - s.saved_slouch_seconds) := by
    rw [h3.2.2.2.2.1, h2.2.2.2.1, hts, hs1ss, h1.2.2.2.2.1, hdb, hs0]
  have hdur3 : r3.2.1.durable = m0.durable := by
    rw [h3.2.1, h2.2.2.1, h1.2.2.1]
  simp only [flushFinish, h3.1, Bool.false_eq_true, if_false]
  have hH := flushHourly_none r3.1 r3.2.1 hour h3.1
  simp only [hH.2.2.2.1, Bool.false_eq_true, if_false]
  by_cases hch :
      (r1.2.2 || r2.2.2 || r3.2.2 ||
        (flushHourly r3.1 r3.2.1 none hour false).2.2) = true
  · simp only [hch, if_true]
    rw [doCommit_none _ hH.2.2.2.1]
    refine ⟨rfl, ?_, ?_⟩
    · show ((flushHourly r3.1 r3.2.1 none hour false).2.1.staged.screen_time
        today).getD 0 = _
      rw [hH.2.2.2.2.2.1, hscr3]
      omega
    · show ((flushHourly r3.1 r3.2.1 none hour false).2.1.staged.posture_time
        today).getD 0 = _
      rw [hH.2.2.2.2.2.2, hpos3]
      omega
  · simp only [Bool.or_eq_true, not_or, Bool.not_eq_true] at hch
    obtain ⟨⟨⟨hc1, hc2⟩, hc3⟩, hcH⟩ := hch
    have hf1 := dailyVisibleBlock_changedFlag s m0 today now hm0
    rw [← e1] at hf1
    rw [hf1] at hc1
    have hdv := of_decide_eq_false hc1
    have hr1 : r1 = (s, m0, false) :=
      e1.trans (dailyVisibleBlock_nochange s m0 today now hm0 hdv)
    subst hr1
    dsimp only at e2 hc2 ⊢
    have hf2 := dailySlouchBlock_changedFlag s m0 today now hm0
    rw [← e2] at hf2
    rw [hf2] at hc2
    have hds := of_decide_eq_false hc2
    have hr2 : r2 = (s, m0, false) :=
      e2.trans (dailySlouchBlock_nochange s m0 today now hm0 hds)
    subst hr2
    dsimp only at e3 hc3 hcH ⊢
    have hf3 := dailyDistanceBlock_changedFlag s m0 today ed hm0
    rw [← e3] at hf3
    rw [hf3] at hc3
    have hr3 : r3 = (s, m0, false) :=
      e3.trans (dailyDistanceBlock_nochange s m0 today ed hm0 hc3)
    subst hr3
    dsimp only at hcH ⊢
    have hfH := flushHourly_changedFlag s m0 hour false hm0
    rw [hfH.1] at hcH
    have hnc := flushHourly_nochange s m0 hour false hm0 hcH
    simp only [hnc]
    simp only [hm0, Bool.or_false, Bool.false_or, Bool.false_eq_true, if_false,
      FlushM.toDB]
    refine ⟨hdb, ?_, ?_⟩
    · rw [hv0]
      omega
    · rw [hs0]
      omega

/-- Inductive invariant for C4: watermarks below the running totals, no
open transaction, and the durable daily rows mirror the watermarks. -/
def GoodW (today : String) (w : AggState × DB) (t : ℕ) : Prop :=
  WmInv w.1 t ∧
  w.2.staged = w.2.durable ∧
  (w.2.durable.screen_time today).getD 0 = w.1.saved_visible_seconds ∧
  (w.2.durable.posture_time today).getD 0 = w.1.saved_slouch_seconds

lemma GoodW_cycle {today : String} {w : AggState × DB} {t now : ℕ}
    (h : GoodW today w t) (hle : t ≤ now) (vis : Bool) (pos : Option Bool)
    (sample : Option ℚ) :
    GoodW today (cycle w.1 now vis pos sample, w.2) now := by
  have hc := cycle_core w.1 now vis pos sample
  exact ⟨WmInv_cycle h.1 hle vis pos sample, h.2.1,
    by rw [hc.2.2.1]; exact h.2.2.1, by rw [hc.2.2.2]; exact h.2.2.2⟩

lemma GoodW_flushDaily {today : String} {w : AggState × DB} {t now : ℕ}
    (h : GoodW today w t) (hle : t ≤ now) (hour : String) (ed : Bool) :
    GoodW today (flushDaily w.1 w.2 none today hour ed now) now := by
  have hst := flushDaily_none_state w.1 w.2 today hour ed now
  have hdbb := flushDaily_none_db_aux today hour ed now w.1 (FlushM.ofDB w.2)
    rfl h.2.1 h.2.2.1 h.2.2.2 _ _ _ rfl rfl rfl
  refine ⟨WmInv_flushDaily h.1 hle w.2 none today hour ed, hdbb.1, ?_, ?_⟩
  · rw [hst.2.2.1]
    exact hdbb.2.1
  · rw [hst.2.2.2.1]
    exact hdbb.2.2

/-- With no injected failure, the hour-rollover flush (auto commit) either
does nothing or leaves a committed store. -/
lemma flushHourlyOps_commit (s : AggState) (m : FlushM) (hour : String)
    (hf : m.failed = false) :
    flushHourlyOps s m none hour true = m ∨
    (flushHourlyOps s m none hour true).durable =
      (flushHourlyOps s m none hour true).staged := by
  by_cases h1 : 0 < s.pending_hour_visible_seconds <;>
    by_cases h2 : 0 < s.pending_hour_slouch_seconds <;>
    by_cases h3 : 0 < s.pending_hour_distance_count <;>
    simp [flushHourlyOps, doRead, doWrite, doCommit, hf, h1, h2, h3]

lemma GoodW_hourRollover {today : String} {w : AggState × DB} {t : ℕ}
    (h : GoodW today w t) (hour : String) :
    GoodW today
      ((flushHourly w.1 (FlushM.ofDB w.2) none hour true).1,
       (flushHourly w.1 (FlushM.ofDB w.2) none hour true).2.1.toDB) t := by
  have hOps := flushHourlyOps_none_ac w.1 (FlushM.ofDB w.2) hour true rfl
  have hfl := flushHourly_changedFlag w.1 (FlushM.ofDB w.2) hour true rfl
  have hstate := flushHourly_state w.1 (FlushM.ofDB w.2) none hour true
  have hcommit := flushHourlyOps_commit w.1 (FlushM.ofDB w.2) hour rfl
  have hWm : WmInv (flushHourly w.1 (FlushM.ofDB w.2) none hour true).1 t :=
    WmInv_flushHourly h.1 _ none hour true
  refine ⟨hWm, ?_, ?_, ?_⟩
  · show (flushHourly w.1 (FlushM.ofDB w.2) none hour true).2.1.staged = _
    rw [hfl.2]
    rcases hcommit with hc | hc
    · rw [hc]
      exact h.2.1
    · exact hc.symm
  · show ((flushHourly w.1 (FlushM.ofDB w.2) none hour true).2.1.durable.screen_time
      today).getD 0 = _
    rw [hfl.2, hstate.2.2.1]
    rcases hcommit with hc | hc
    · rw [hc]
      exact h.2.2.1
    · rw [hc, hOps.2.1]
      show ((w.2.staged.screen_time today).getD 0) = _
      rw [h.2.1]
      exact h.2.2.1
  · show ((flushHourly w.1 (FlushM.ofDB w.2) none hour true).2.1.durable.posture_time
      today).getD 0 = _
    rw [hfl.2, hstate.2.2.2.1]
    rcases hcommit with hc | hc
    · rw [hc]
      exact h.2.2.2
    · rw [hc, hOps.2.2.1]
      show ((w.2.staged.posture_time today).getD 0) = _
      rw [h.2.1]
      exact h.2.2.2

lemma GoodW_runEvents (today : String) (tr : List Ev) :
    ∀ (w : AggState × DB) (t : ℕ), GoodW today w t →
      timesOkFrom t tr = true → noFail tr = true → noErase tr = true →
      GoodW today (runEvents today w tr) (lastTime t tr) ∧
      vp (runEvents today w tr).1 = specVisPair (vp w.1) (cyclesOf tr) := by
  induction tr with
  | nil => intro w t h _ _ _; exact ⟨h, rfl⟩
  | cons e tr ih =>
      intro w t h hok hnf hne
      cases e with
      | cycle now vis pos sample =>
          simp only [timesOkFrom, Bool.and_eq_true, decide_eq_true_eq] at hok
          simp only [noFail] at hnf
          simp only [noErase] at hne
          have hstep := GoodW_cycle h hok.1 vis pos sample
          have hrec := ih (cycle w.1 now vis pos sample, w.2) now hstep hok.2 hnf hne
          refine ⟨hrec.1, hrec.2.trans ?_⟩
          rw [(cycle_core w.1 now vis pos sample).1]
          rfl
      | flush now hour failAt =>
          simp only [timesOkFrom, Bool.and_eq_true, decide_eq_true_eq] at hok
          simp only [noFail, Bool.and_eq_true, Option.isNone_iff_eq_none] at hnf
          simp only [noErase] at hne
          obtain ⟨hfa, hnf⟩ := hnf
          subst hfa
          have hstep := GoodW_flushDaily h hok.1 hour true
          have hrec := ih (flushDaily w.1 w.2 none today hour true now) now
            hstep hok.2 hnf hne
          refine ⟨hrec.1, hrec.2.trans ?_⟩
          rw [(flushDaily_state w.1 w.2 none today hour true now).1]
          rfl
      | hourRollover hour failAt =>
          simp only [timesOkFrom] at hok
          simp only [noFail, Bool.and_eq_true, Option.isNone_iff_eq_none] at hnf
          simp only [noErase] at hne
          obtain ⟨hfa, hnf⟩ := hnf
          subst hfa
          have hstep := GoodW_hourRollover h hour
          have hrec := ih ((flushHourly w.1 (FlushM.ofDB w.2) none hour true).1,
            (flushHourly w.1 (FlushM.ofDB w.2) none hour true).2.1.toDB) t
            hstep hok hnf hne
          refine ⟨hrec.1, hrec.2.trans ?_⟩
          rw [(flushHourly_state w.1 (FlushM.ofDB w.2) none hour true).1]
          rfl
      | erase =>
          simp [noErase] at hne

/-- Core of the shutdown: a failure-free close flush over a state whose
visible segment is already folded persists exactly the accumulated visible
seconds. -/
lemma closeCore (today hour : String) (ed : Bool) (T : ℕ)
    (sB : AggState) (db : DB)
    (hstart : sB.visible_start = none)
    (hG2 : sB.saved_visible_seconds ≤ sB.visible_seconds)
    (hdb : db.staged = db.durable)
    (hv0 : (db.durable.screen_time today).getD 0 = sB.saved_visible_seconds)
    (hs0 : (db.durable.posture_time today).getD 0 = sB.saved_slouch_seconds) :
    (flushDaily sB db none today hour ed T).1.visible_seconds =
      sB.visible_seconds ∧
    ((flushDaily sB db none today hour ed T).2.durable.screen_time today).getD 0 =
      sB.visible_seconds := by
  have hst := flushDaily_none_state sB db today hour ed T
  have hdbb := flushDaily_none_db_aux today hour ed T sB (FlushM.ofDB db) rfl
    hdb hv0 hs0 _ _ _ rfl rfl rfl
  have htv : totalVisible sB T = sB.visible_seconds := by
    simp [totalVisible, hstart]
  constructor
  · have hvp := hst.1
    unfold vp at hvp
    exact congrArg Prod.fst hvp
  · have hg := hdbb.2.1
    rw [htv] at hg
    have hg2 : ((flushDaily sB db none today hour ed T).2.durable.screen_time
        today).getD 0 = max sB.saved_visible_seconds sB.visible_seconds := hg
    rw [hg2]
    omega

/-- `_on_close` over a GoodW world at instant `T` persists exactly the
folded total of the visible segments. -/
lemma closeApp_goodFinal (today hour : String) (ed : Bool) (T : ℕ)
    (w : AggState × DB) (hG : GoodW today w T) :
    (closeApp w.1 w.2 none today hour ed T).1.visible_seconds =
      (specStep (vp w.1) (T, false)).1 ∧
    ((closeApp w.1 w.2 none today hour ed T).2.durable.screen_time
      today).getD 0 = (specStep (vp w.1) (T, false)).1 := by
  have hwm := hG.1.1
  unfold totalVisible at hwm
  rcases hv : w.1.visible_start with _ | t0
  · have hwm2 : w.1.saved_visible_seconds ≤ w.1.visible_seconds := by
      rw [hv] at hwm
      simpa using hwm
    rcases hs : w.1.slouch_session_start with _ | t1
    · simp only [closeApp, hv, hs, specStep, vp]
      exact closeCore today hour ed T w.1 w.2 hv hwm2 hG.2.1 hG.2.2.1 hG.2.2.2
    · simp only [closeApp, hv, hs, specStep, vp]
      exact closeCore today hour ed T _ w.2 rfl hwm2 hG.2.1 hG.2.2.1 hG.2.2.2
  · have hwm2 : w.1.saved_visible_seconds ≤ w.1.visible_seconds + (T - t0) := by
      rw [hv] at hwm
      simpa using hwm
    rcases hs : w.1.slouch_session_start with _ | t1
    · simp only [closeApp, hv, hs, specStep, vp]
      exact closeCore today hour ed T _ w.2 rfl hwm2 hG.2.1 hG.2.2.1 hG.2.2.2
    · simp only [closeApp, hv, hs, specStep, vp]
      exact closeCore today hour ed T _ w.2 rfl hwm2 hG.2.1 hG.2.2.1 hG.2.2.2

lemma specVisTotalClose_eq (cs : List (ℕ × Bool)) (T : ℕ) :
    specVisTotalClose cs T = (specStep (specVisPair (0, none) cs) (T, false)).1 := by
  unfold specVisTotalClose specStep
  rcases specVisPair (0, none) cs with ⟨a, _ | t0⟩ <;> simp

/-- **C4.** Over every wellformed failure-free execution without a data
erase, the in-memory visible total after the shutdown fold equals the exact
sum of the visible segment durations of the cycle samples, the persisted
daily screen-time row equals that same sum, and the persisted value is
independent of flush timing: any second trace with the same cycle samples
but different flush placement persists the same value. -/
theorem visible_total_exact_and_flush_timing_independent
    (today hour : String) (tr : List Ev) (T : ℕ)
    (hok : timesOkFrom 0 tr = true) (hT : lastTime 0 tr ≤ T)
    (hnf : noFail tr = true) (hne : noErase tr = true) :
    (closeApp (runEvents today (initAgg, initDB) tr).1
        (runEvents today (initAgg, initDB) tr).2 none today hour true
        T).1.visible_seconds = specVisTotalClose (cyclesOf tr) T ∧
    ((closeApp (runEvents today (initAgg, initDB) tr).1
        (runEvents today (initAgg, initDB) tr).2 none today hour true
        T).2.durable.screen_time today).getD 0 =
      specVisTotalClose (cyclesOf tr) T ∧
    (∀ trB : List Ev, timesOkFrom 0 trB = true → lastTime 0 trB ≤ T →
      noFail trB = true → noErase trB = true → cyclesOf trB = cyclesOf tr →
      ((closeApp (runEvents today (initAgg, initDB) trB).1
          (runEvents today (initAgg, initDB) trB).2 none today hour true
          T).2.durable.screen_time today).getD 0 =
      ((closeApp (runEvents today (initAgg, initDB) tr).1
          (runEvents today (initAgg, initDB) tr).2 none today hour true
          T).2.durable.screen_time today).getD 0) := by
  have hG0 : GoodW today (initAgg, initDB) 0 :=
    ⟨⟨Nat.zero_le _, Nat.zero_le _⟩, rfl, rfl, rfl⟩
  have main : ∀ trX : List Ev, timesOkFrom 0 trX = true → lastTime 0 trX ≤ T →
      noFail trX = true → noErase trX = true →
      (closeApp (runEvents today (initAgg, initDB) trX).1
          (runEvents today (initAgg, initDB) trX).2 none today hour true
          T).1.visible_seconds = specVisTotalClose (cyclesOf trX) T ∧
      ((closeApp (runEvents today (initAgg, initDB) trX).1
          (runEvents today (initAgg, initDB) trX).2 none today hour true
          T).2.durable.screen_time today).getD 0 =
        specVisTotalClose (cyclesOf trX) T := by
    intro trX hokX hTX hnfX hneX
    have hrun := GoodW_runEvents today trX (initAgg, initDB) 0 hG0 hokX hnfX hneX
    have hGT : GoodW today (runEvents today (initAgg, initDB) trX) T :=
      ⟨(hrun.1.1).mono hTX, hrun.1.2.1, hrun.1.2.2.1, hrun.1.2.2.2⟩
    have hcl := closeApp_goodFinal today hour true T _ hGT
    have hpair : vp (runEvents today (initAgg, initDB) trX).1 =
        specVisPair (0, none) (cyclesOf trX) := hrun.2
    rw [hpair] at hcl
    rw [specVisTotalClose_eq]
    exact hcl
  have hmain := main tr hok hT hnf hne
  refine ⟨hmain.1, hmain.2, ?_⟩
  intro trB hokB hTB hnfB hneB hcyc
  have hmainB := main trB hokB hTB hnfB hneB
  rw [hmainB.2, hmain.2, hcyc]

/-- Witness for `visible_total_exact_and_flush_timing_independent`: the
trace with segments visible on [0,3) and open from 5, a flush at 2, closed
at 9, totals 3 + 4 = 7 seconds. -/
theorem visible_total_exact_and_flush_timing_independent_witness :
    (closeApp (runEvents "D" (initAgg, initDB)
        [Ev.cycle 0 true none none, Ev.flush 2 "H" none,
         Ev.cycle 3 false none none, Ev.cycle 5 true none none]).1
        (runEvents "D" (initAgg, initDB)
        [Ev.cycle 0 true none none, Ev.flush 2 "H" none,
         Ev.cycle 3 false none none, Ev.cycle 5 true none none]).2
        none "D" "H" true 9).1.visible_seconds =
      specVisTotalClose (cyclesOf
        [Ev.cycle 0 true none none, Ev.flush 2 "H" none,
         Ev.cycle 3 false none none, Ev.cycle 5 true none none]) 9 ∧
    ((closeApp (runEvents "D" (initAgg, initDB)
        [Ev.cycle 0 true none none, Ev.flush 2 "H" none,
         Ev.cycle 3 false none none, Ev.cycle 5 true none none]).1
        (runEvents "D" (initAgg, initDB)
        [Ev.cycle 0 true none none, Ev.flush 2 "H" none,
         Ev.cycle 3 false none none, Ev.cycle 5 true none none]).2
        none "D" "H" true 9).2.durable.screen_time "D").getD 0 =
      specVisTotalClose (cyclesOf
        [Ev.cycle 0 true none none, Ev.flush 2 "H" none,
         Ev.cycle 3 false none none, Ev.cycle 5 true none none]) 9 ∧
    specVisTotalClose (cyclesOf
        [Ev.cycle 0 true none none, Ev.flush 2 "H" none,
         Ev.cycle 3 false none none, Ev.cycle 5 true none none]) 9 = 7 := by
  have h := visible_total_exact_and_flush_timing_independent "D" "H"
    [Ev.cycle 0 true none none, Ev.flush 2 "H" none,
     Ev.cycle 3 false none none, Ev.cycle 5 true none none] 9
    (by decide) (by decide) (by decide) (by decide)
  exact ⟨h.1, h.2.1, by decide⟩

/-! ### Calibration profile and the data-erase (C8) -/

/-- The calibration profile: focal length, reference IPD, and the optional
neutral baseline `(face_width_px, shoulder_span_px, eye_tilt_angle_deg)`
(lines 274-276, 2529-2532, 2634-2637). It is persisted in
`calibration.json`, separate from the sqlite tables. -/
structure CalibProfile where
  focal_length : ℚ
  real_ipd_cm : ℚ
  neutral : Option (Option ℚ × Option ℚ × ℚ)

/-- The data-erase at session scope: the store/state erase of
`_execute_data_erase` beside the calibration profile. No statement of
lines 1221-1277 references `self.calib`, `self.focal_length`,
`self.real_ipd_cm` or `CALIB_FILE`, so the profile passes through
untouched. -/
def eraseSession (s : AggState) (db : DB) (calib : CalibProfile) :
    (AggState × DB) × CalibProfile :=
  (executeDataErase s db, calib)

/-- **C8.** A data erase empties every row of exactly the seven persisted
tables — alerts, screen_time, posture_time, distance_log, screen_hourly,
posture_hourly, distance_hourly — in both the transaction view and the
durable store, and leaves every component of the calibration profile
(focal length, reference IPD, neutral baseline) unchanged. -/
theorem data_erase_truncates_tables_not_calibration
    (s : AggState) (db : DB) (calib : CalibProfile) (key : String) :
    let w := (eraseSession s db calib).1
    (w.2.durable.screen_time key = none ∧
     w.2.durable.posture_time key = none ∧
     w.2.durable.distance_log key = none ∧
     w.2.durable.screen_hourly key = none ∧
     w.2.durable.posture_hourly key = none ∧
     w.2.durable.distance_hourly key = none ∧
     w.2.durable.alerts = [] ∧
     w.2.staged.screen_time key = none ∧
     w.2.staged.alerts = []) ∧
    ((eraseSession s db calib).2.focal_length = calib.focal_length ∧
     (eraseSession s db calib).2.real_ipd_cm = calib.real_ipd_cm ∧
     (eraseSession s db calib).2.neutral = calib.neutral) := by
  exact ⟨⟨rfl, rfl, rfl, rfl, rfl, rfl, rfl, rfl, rfl⟩, rfl, rfl, rfl⟩


/-! ### Alert state machines (C7)

`_update_posture_state` (lines 1880-1910) drives the "Bad Posture"
category from `_posture_start` / `_posture_active_since` /
`_posture_notified`; the too-close category (lines 2237-2259) uses
`too_close_start` / `too_close_active_since` with a 60-second cooldown
written into `too_close_start`; nail biting (lines 1911-1933) uses
`_nail_biting_start` / `_nail_active_since` with the fixed
`NAIL_BITING_DURATION` and a 60-second cooldown. Times are the integer
`now = time.time()` seconds of the one-second stats cycle; `fires` records
the instants at which `notify_os` runs. -/

/-- `NAIL_BITING_DURATION` (line 66). -/
def NAIL_BITING_DURATION : ℕ := 5

/-- State of the "Bad Posture" alert category: `_posture_start`,
`_posture_active_since`, `_posture_notified` (deleted attributes modeled
as `none` / `false`), membership of `"Bad Posture"` in `active_alerts`,
and the notification instants. -/
structure PostureAlert where
  posture_start : Option ℕ
  posture_active_since : Option ℕ
  posture_notified : Bool
  inActive : Bool
  fires : List ℕ

def initPosture : PostureAlert := ⟨none, none, false, false, []⟩

/-- One stats-cycle step of lines 1881-1910 at instant `now` with
condition `cond` (= `posture_detected and (not body_turn or
head_turn_bad)`). `posture_active_since` is set and cleared together with
`posture_start`, so the `getD now` fallback is never exercised on
reachable states. -/
def postureStep (delay appear : ℕ) (st : PostureAlert) (cond : Bool)
    (now : ℕ) : PostureAlert :=
  if cond then
    let st1 :=
      match st.posture_start with
      | none => { st with posture_start := some now,
                          posture_active_since := some now }
      | some _ =>
          if appear ≤ now - st.posture_active_since.getD now then
            { st with inActive := true }
          else st
    if st1.posture_notified = false then
      match st1.posture_start with
      | some s =>
          if max 1 delay ≤ now - s then
            { st1 with posture_notified := true, fires := st1.fires ++ [now] }
          else st1
      | none => st1
    else st1
  else
    { st with posture_start := none, posture_active_since := none,
              posture_notified := false, inActive := false }

/-- State of the too-close category (lines 2240-2259): `too_close_start`,
`too_close_active_since` (read through `getattr(..., now)` and *not*
cleared when the condition drops), the active-set membership, and the
notification instants. -/
structure TooCloseAlert where
  too_close_start : Option ℕ
  too_close_active_since : Option ℕ
  inActive : Bool
  fires : List ℕ

def initTooClose : TooCloseAlert := ⟨none, none, false, []⟩

/-- One step of lines 2240-2259 with `cond` = `distance_cm <
min_distance_cm`. The notification test is the strict
`now - too_close_start > max(1, delay_seconds)` of line 2248, and a fire
rewrites `too_close_start := now + 60` (line 2254). -/
def tooCloseStep (delay appear : ℕ) (st : TooCloseAlert) (cond : Bool)
    (now : ℕ) : TooCloseAlert :=
  if cond then
    let st1 :=
      match st.too_close_start with
      | none => { st with too_close_start := some now,
                          too_close_active_since := some now }
      | some _ =>
          if appear ≤ now - st.too_close_active_since.getD now then
            { st with inActive := true }
          else st
    match st1.too_close_start with
    | some s =>
        if max 1 delay < now - s then
          { st1 with fires := st1.fires ++ [now],
                     too_close_start := some (now + 60) }
        else st1
    | none => st1
  else
    { st with too_close_start := none, inActive := false }

/-- State of the nail-biting category (lines 1911-1933). -/
structure NailAlert where
  nail_start : Option ℕ
  nail_active_since : Option ℕ
  inActive : Bool
  fires : List ℕ

def initNail : NailAlert := ⟨none, none, false, []⟩

/-- One step of lines 1911-1933 with `cond` =
`enable_nail_biting and flags["nail_biting"]`. The category is added to
`active_alerts` on the very first true cycle, before any appear delay;
the fire test is `now - _nail_biting_start ≥ NAIL_BITING_DURATION` with
cooldown `_nail_biting_start := now + 60`. -/
def nailStep (st : NailAlert) (cond : Bool) (now : ℕ) : NailAlert :=
  if cond then
    let st1 := { st with
      nail_active_since := some (st.nail_active_since.getD now),
      inActive := true }
    let st2 :=
      match st1.nail_start with
      | none => { st1 with nail_start := some now }
      | some _ => st1
    match st2.nail_start with
    | some s =>
        if NAIL_BITING_DURATION ≤ now - s then
          { st2 with fires := st2.fires ++ [now], nail_start := some (now + 60) }
        else st2
    | none => st2
  else
    { st with nail_start := none, nail_active_since := none,
              inActive := false }

/-- A run of posture steps over the cycle instants `ts` with condition
stream `c`. -/
def runPosture (delay appear : ℕ) (c : ℕ → Bool) (ts : List ℕ)
    (st : PostureAlert) : PostureAlert :=
  ts.foldl (fun a t => postureStep delay appear a (c t) t) st

/-- A run of too-close steps over the cycle instants `ts`. -/
def runTooClose (delay appear : ℕ) (c : ℕ → Bool) (ts : List ℕ)
    (st : TooCloseAlert) : TooCloseAlert :=
  ts.foldl (fun a t => tooCloseStep delay appear a (c t) t) st

/-- Strictly ascending cycle instants bounded below by `b`. -/
def ascTimes : ℕ → List ℕ → Bool
  | _, [] => true
  | b, t :: ts => decide (b ≤ t) && ascTimes (t + 1) ts

/-- Shape of one posture step: a false condition clears the start marker
and fires nothing; a true condition keeps (or freshly seeds) the start
marker and can append at most the fire instant `now`, and only when the
delay has elapsed since the start. -/
lemma postureStep_cases (delay appear : ℕ) (st : PostureAlert) (cond : Bool)
    (now : ℕ) :
    (cond = false ∧ (postureStep delay appear st cond now).posture_start = none ∧
      (postureStep delay appear st cond now).fires = st.fires) ∨
    (cond = true ∧ ∃ s,
      (postureStep delay appear st cond now).posture_start = some s ∧
      (st.posture_start = some s ∨ st.posture_start = none ∧ s = now) ∧
      ((postureStep delay appear st cond now).fires = st.fires ∨
        (postureStep delay appear st cond now).fires = st.fires ++ [now] ∧
          s + max 1 delay ≤ now)) := by
  cases hc : cond with
  | false =>
      left
      exact ⟨rfl, by simp [postureStep], by simp [postureStep]⟩
  | true =>
      right
      refine ⟨rfl, ?_⟩
      rcases hps : st.posture_start with _ | s0
      · refine ⟨now, ?_, Or.inr ⟨rfl, rfl⟩, ?_⟩
        · have h2 : ¬ (max 1 delay ≤ now - now) := by omega
          simp [postureStep, hps, h2]
        · left
          have h2 : ¬ (max 1 delay ≤ now - now) := by omega
          simp [postureStep, hps, h2]
      · refine ⟨s0, ?_, Or.inl rfl, ?_⟩
        · by_cases ha : appear ≤ now - st.posture_active_since.getD now <;>
            by_cases hn : st.posture_notified = false <;>
            by_cases hd : max 1 delay ≤ now - s0 <;>
            simp [postureStep, hps, ha, hn, hd]
        · by_cases ha : appear ≤ now - st.posture_active_since.getD now <;>
            by_cases hn : st.posture_notified = false <;>
            by_cases hd : max 1 delay ≤ now - s0 <;>
            simp [postureStep, hps, ha, hn, hd] <;>
            omega

/-- Shape of one too-close step: a false condition clears the start
marker; a true condition keeps (or seeds) it, and a fire appends `now`,
requires the strictly-elapsed delay, and rewrites the start to the
cooldown instant `now + 60`. -/
lemma tooCloseStep_cases (delay appear : ℕ) (st : TooCloseAlert)
    (cond : Bool) (now : ℕ) :
    (cond = false ∧ (tooCloseStep delay appear st cond now).too_close_start = none ∧
      (tooCloseStep delay appear st cond now).fires = st.fires) ∨
    (cond = true ∧ ∃ s,
      (st.too_close_start = some s ∨ st.too_close_start = none ∧ s = now) ∧
      (((tooCloseStep delay appear st cond now).fires = st.fires ∧
        (tooCloseStep delay appear st cond now).too_close_start = some s) ∨
       ((tooCloseStep delay appear st cond now).fires = st.fires ++ [now] ∧
        s + max 1 delay < now ∧
        (tooCloseStep delay appear st cond now).too_close_start =
          some (now + 60)))) := by
  cases hc : cond with
  | false =>
      left
      exact ⟨rfl, by simp [tooCloseStep], by simp [tooCloseStep]⟩
  | true =>
      right
      refine ⟨rfl, ?_⟩
      rcases hps : st.too_close_start with _ | s0
      · refine ⟨now, Or.inr ⟨rfl, rfl⟩, Or.inl ?_⟩
        have h2 : ¬ (max 1 delay < now - now) := by omega
        constructor <;> simp [tooCloseStep, hps, h2]
      · refine ⟨s0, Or.inl rfl, ?_⟩
        by_cases ha : appear ≤ now - st.too_close_active_since.getD now <;>
          by_cases hd : max 1 delay < now - s0
        · right
          refine ⟨by simp [tooCloseStep, hps, ha, hd], by omega,
            by simp [tooCloseStep, hps, ha, hd]⟩
        · left
          exact ⟨by simp [tooCloseStep, hps, ha, hd],
            by simp [tooCloseStep, hps, ha, hd]⟩
        · right
          refine ⟨by simp [tooCloseStep, hps, ha, hd], by omega,
            by simp [tooCloseStep, hps, ha, hd]⟩
        · left
          exact ⟨by simp [tooCloseStep, hps, ha, hd],
            by simp [tooCloseStep, hps, ha, hd]⟩

/-- Extending the processed-instants list by a later instant preserves the
recorded-fire property: the new instant is beyond every recorded fire. -/
lemma fires_extend (c : ℕ → Bool) (D : ℕ) (done fs : List ℕ) (t b : ℕ)
    (hdone : ∀ d ∈ done, d < b) (hbt : b ≤ t)
    (h : ∀ n ∈ fs, n ∈ done ∧ ∃ s, s + D ≤ n ∧
      ∀ u ∈ done, s ≤ u → u ≤ n → c u = true) :
    ∀ n ∈ fs, n ∈ done ++ [t] ∧ ∃ s, s + D ≤ n ∧
      ∀ u ∈ done ++ [t], s ≤ u → u ≤ n → c u = true := by
  intro n hn
  obtain ⟨hmem, s, hs1, hs2⟩ := h n hn
  refine ⟨List.mem_append_left _ hmem, s, hs1, ?_⟩
  intro u hu hsu hun
  rcases List.mem_append.mp hu with hu | hu
  · exact hs2 u hu hsu hun
  · have hut : u = t := by simpa using hu
    have hnb := hdone n hmem
    omega

/-- The extended processed list stays below the next lower bound. -/
lemma done_bound_extend (done : List ℕ) (t b : ℕ)
    (hdone : ∀ d ∈ done, d < b) (hbt : b ≤ t) :
    ∀ d ∈ done ++ [t], d < t + 1 := by
  intro d hd
  rcases List.mem_append.mp hd with h | h
  · have := hdone d h
    omega
  · have : d = t := by simpa using h
    omega

/-- Soundness invariant for a posture run: every recorded fire instant
follows at least `max 1 delay` seconds of continuously true condition. -/
lemma posture_fires_sound_aux (delay appear : ℕ) (c : ℕ → Bool) :
    ∀ (ts done : List ℕ) (b : ℕ) (st : PostureAlert),
      ascTimes b ts = true →
      (∀ d ∈ done, d < b) →
      (∀ s, st.posture_start = some s → ∀ u ∈ done, s ≤ u → c u = true) →
      (∀ n ∈ st.fires, n ∈ done ∧ ∃ s, s + max 1 delay ≤ n ∧
        ∀ u ∈ done, s ≤ u → u ≤ n → c u = true) →
      ∀ n ∈ (runPosture delay appear c ts st).fires,
        ∃ s, s + max 1 delay ≤ n ∧
          ∀ u ∈ done ++ ts, s ≤ u → u ≤ n → c u = true := by
  intro ts
  induction ts with
  | nil =>
      intro done b st _ _ _ hfires n hn
      obtain ⟨_, s, hs1, hs2⟩ := hfires n hn
      exact ⟨s, hs1, by simpa using hs2⟩
  | cons t ts ih =>
      intro done b st hasc hdone hInv hfires n hn
      simp only [ascTimes, Bool.and_eq_true, decide_eq_true_eq] at hasc
      obtain ⟨hbt, hasc2⟩ := hasc
      have hrun : runPosture delay appear c (t :: ts) st =
          runPosture delay appear c ts (postureStep delay appear st (c t) t) :=
        rfl
      rw [hrun] at hn
      have hdone2 := done_bound_extend done t b hdone hbt
      have happ : (done ++ [t]) ++ ts = done ++ t :: ts := by simp
      rcases postureStep_cases delay appear st (c t) t with
        ⟨hc, hstart, hfeq⟩ | ⟨hc, s, hstart, hold, hfe⟩
      · have hInv2 : ∀ s, (postureStep delay appear st (c t) t).posture_start =
            some s → ∀ u ∈ done ++ [t], s ≤ u → c u = true := by
          intro s hs
          rw [hstart] at hs
          exact absurd hs (by simp)
        have hfires2 : ∀ n ∈ (postureStep delay appear st (c t) t).fires,
            n ∈ done ++ [t] ∧ ∃ s, s + max 1 delay ≤ n ∧
            ∀ u ∈ done ++ [t], s ≤ u → u ≤ n → c u = true := by
          rw [hfeq]
          exact fires_extend c (max 1 delay) done st.fires t b hdone hbt hfires
        obtain ⟨s, hs1, hs2⟩ :=
          ih (done ++ [t]) (t + 1) _ hasc2 hdone2 hInv2 hfires2 n hn
        rw [happ] at hs2
        exact ⟨s, hs1, hs2⟩
      · have hcont : ∀ u ∈ done ++ [t], s ≤ u → c u = true := by
          intro u hu hsu
          rcases List.mem_append.mp hu with hu | hu
          · rcases hold with h0 | ⟨_, hst⟩
            · exact hInv s h0 u hu hsu
            · have := hdone u hu
              omega
          · have : u = t := by simpa using hu
            rw [this]
            exact hc
        have hInv2 : ∀ s2, (postureStep delay appear st (c t) t).posture_start =
            some s2 → ∀ u ∈ done ++ [t], s2 ≤ u → c u = true := by
          intro s2 hs2
          rw [hstart] at hs2
          have : s = s2 := Option.some.inj hs2
          rw [← this]
          exact hcont
        have hfires2 : ∀ n ∈ (postureStep delay appear st (c t) t).fires,
            n ∈ done ++ [t] ∧ ∃ s2, s2 + max 1 delay ≤ n ∧
            ∀ u ∈ done ++ [t], s2 ≤ u → u ≤ n → c u = true := by
          rcases hfe with hfe | ⟨hfe, hdel⟩
          · rw [hfe]
            exact fires_extend c (max 1 delay) done st.fires t b hdone hbt hfires
          · rw [hfe]
            intro n2 hn2
            rcases List.mem_append.mp hn2 with hn2 | hn2
            · exact fires_extend c (max 1 delay) done st.fires t b hdone hbt
                hfires n2 hn2
            · have hn2t : n2 = t := by simpa using hn2
              subst hn2t
              exact ⟨List.mem_append_right _ (by simp), s, hdel,
                fun u hu hsu _ => hcont u hu hsu⟩
        obtain ⟨s2, hs1, hs2⟩ :=
          ih (done ++ [t]) (t + 1) _ hasc2 hdone2 hInv2 hfires2 n hn
        rw [happ] at hs2
        exact ⟨s2, hs1, hs2⟩

/-- Soundness invariant for a too-close run, with the strict comparison of
line 2248. -/
lemma tooClose_fires_sound_aux (delay appear : ℕ) (c : ℕ → Bool) :
    ∀ (ts done : List ℕ) (b : ℕ) (st : TooCloseAlert),
      ascTimes b ts = true →
      (∀ d ∈ done, d < b) →
      (∀ s, st.too_close_start = some s → ∀ u ∈ done, s ≤ u → c u = true) →
      (∀ n ∈ st.fires, n ∈ done ∧ ∃ s, s + max 1 delay < n ∧
        ∀ u ∈ done, s ≤ u → u ≤ n → c u = true) →
      ∀ n ∈ (runTooClose delay appear c ts st).fires,
        ∃ s, s + max 1 delay < n ∧
          ∀ u ∈ done ++ ts, s ≤ u → u ≤ n → c u = true := by
  intro ts
  induction ts with
  | nil =>
      intro done b st _ _ _ hfires n hn
      obtain ⟨_, s, hs1, hs2⟩ := hfires n hn
      exact ⟨s, hs1, by simpa using hs2⟩
  | cons t ts ih =>
      intro done b st hasc hdone hInv hfires n hn
      simp only [ascTimes, Bool.and_eq_true, decide_eq_true_eq] at hasc
      obtain ⟨hbt, hasc2⟩ := hasc
      have hrun : runTooClose delay appear c (t :: ts) st =
          runTooClose delay appear c ts (tooCloseStep delay appear st (c t) t) :=
        rfl
      rw [hrun] at hn
      have hdone2 := done_bound_extend done t b hdone hbt
      have happ : (done ++ [t]) ++ ts = done ++ t :: ts := by simp
      rcases tooCloseStep_cases delay appear st (c t) t with
        ⟨hc, hstart, hfeq⟩ | ⟨hc, s, hold, hfe⟩
      · have hInv2 : ∀ s, (tooCloseStep delay appear st (c t) t).too_close_start =
            some s → ∀ u ∈ done ++ [t], s ≤ u → c u = true := by
          intro s hs
          rw [hstart] at hs
          exact absurd hs (by simp)
        have hfires2 : ∀ n ∈ (tooCloseStep delay appear st (c t) t).fires,
            n ∈ done ++ [t] ∧ ∃ s, s + max 1 delay + 1 ≤ n ∧
            ∀ u ∈ done ++ [t], s ≤ u → u ≤ n → c u = true := by
          rw [hfeq]
          exact fires_extend c (max 1 delay + 1) done st.fires t b hdone hbt
            (fun n hn => by
              obtain ⟨hmem, s, hs1, hs2⟩ := hfires n hn
              exact ⟨hmem, s, by omega, hs2⟩)
        obtain ⟨s, hs1, hs2⟩ :=
          ih (done ++ [t]) (t + 1) _ hasc2 hdone2 hInv2
            (fun n hn => by
              obtain ⟨hmem, s, hs1, hs2⟩ := hfires2 n hn
              exact ⟨hmem, s, by omega, hs2⟩) n hn
        rw [happ] at hs2
        exact ⟨s, hs1, hs2⟩
      · have hcont : ∀ u ∈ done ++ [t], s ≤ u → c u = true := by
          intro u hu hsu
          rcases List.mem_append.mp hu with hu | hu
          · rcases hold with h0 | ⟨_, hst⟩
            · exact hInv s h0 u hu hsu
            · have := hdone u hu
              omega
          · have : u = t := by simpa using hu
            rw [this]
            exact hc
        have hInv2 : ∀ s2, (tooCloseStep delay appear st (c t) t).too_close_start =
            some s2 → ∀ u ∈ done ++ [t], s2 ≤ u → c u = true := by
          rcases hfe with ⟨_, hstart⟩ | ⟨_, _, hstart⟩
          · intro s2 hs2
            rw [hstart] at hs2
            have : s = s2 := Option.some.inj hs2
            rw [← this]
            exact hcont
          · intro s2 hs2 u hu hle
            rw [hstart] at hs2
            have h2 : t + 60 = s2 := Option.some.inj hs2
            have := hdone2 u hu
            omega
        have hfires2 : ∀ n ∈ (tooCloseStep delay appear st (c t) t).fires,
            n ∈ done ++ [t] ∧ ∃ s2, s2 + max 1 delay < n ∧
            ∀ u ∈ done ++ [t], s2 ≤ u → u ≤ n → c u = true := by
          rcases hfe with ⟨hfe, _⟩ | ⟨hfe, hdel, _⟩
          · rw [hfe]
            exact fun n hn => by
              obtain ⟨hmem, s2, hs1, hs2⟩ :=
                fires_extend c (max 1 delay + 1) done st.fires t b hdone hbt
                  (fun n hn => by
                    obtain ⟨hmem, s2, hs1, hs2⟩ := hfires n hn
                    exact ⟨hmem, s2, by omega, hs2⟩) n hn
              exact ⟨hmem, s2, by omega, hs2⟩
          · rw [hfe]
            intro n2 hn2
            rcases List.mem_append.mp hn2 with hn2 | hn2
            · obtain ⟨hmem, s2, hs1, hs2⟩ :=
                fires_extend c (max 1 delay + 1) done st.fires t b hdone hbt
                  (fun n hn => by
                    obtain ⟨hmem, s2, hs1, hs2⟩ := hfires n hn
                    exact ⟨hmem, s2, by omega, hs2⟩) n2 hn2
              exact ⟨hmem, s2, by omega, hs2⟩
            · have hn2t : n2 = t := by simpa using hn2
              subst hn2t
              exact ⟨List.mem_append_right _ (by simp), s, hdel,
                fun u hu hsu _ => hcont u hu hsu⟩
        obtain ⟨s2, hs1, hs2⟩ :=
          ih (done ++ [t]) (t + 1) _ hasc2 hdone2 hInv2 hfires2 n hn
        rw [happ] at hs2
        exact ⟨s2, hs1, hs2⟩

/-- Projection facts about one posture step used for appear-delay gating:
a false condition deactivates; a fresh start does not activate on the same
cycle; and while the elapsed time since the remembered start stays below
`appear`, activation state is unchanged. -/
lemma postureStep_gate_cases (delay appear : ℕ) (st : PostureAlert)
    (now : ℕ) :
    ((postureStep delay appear st false now).inActive = false ∧
      (postureStep delay appear st false now).posture_start = none) ∧
    (st.posture_start = none →
      ((postureStep delay appear st true now).inActive = st.inActive ∧
       (postureStep delay appear st true now).posture_start = some now ∧
       (postureStep delay appear st true now).posture_active_since = some now)) ∧
    (∀ s, st.posture_start = some s → st.posture_active_since = some s →
      now - s < appear →
      ((postureStep delay appear st true now).inActive = st.inActive ∧
       (postureStep delay appear st true now).posture_start = some s ∧
       (postureStep delay appear st true now).posture_active_since = some s)) := by
  refine ⟨⟨by simp [postureStep], by simp [postureStep]⟩, ?_, ?_⟩
  · intro hps
    have h2 : ¬ (max 1 delay ≤ now - now) := by omega
    refine ⟨?_, ?_, ?_⟩ <;> simp [postureStep, hps, h2]
  · intro s hps has hlt
    have ha : ¬ (appear ≤ now - s) := by omega
    by_cases hn : st.posture_notified = false <;>
      by_cases hd : max 1 delay ≤ now - s <;>
      refine ⟨?_, ?_, ?_⟩ <;> simp [postureStep, hps, has, ha, hn, hd]

/-- Appear-delay gating for posture runs: if every pair of cycle instants
is closer than `appear`, the category never enters the active set. -/
lemma posture_gate_aux (delay appear : ℕ) (c : ℕ → Bool) :
    ∀ (ts : List ℕ) (st : PostureAlert),
      st.inActive = false →
      (st.posture_start = none ∨ ∃ s, st.posture_start = some s ∧
        st.posture_active_since = some s ∧ ∀ u ∈ ts, u - s < appear) →
      (∀ u ∈ ts, ∀ v ∈ ts, v - u < appear) →
      (runPosture delay appear c ts st).inActive = false := by
  intro ts
  induction ts with
  | nil => intro st hA _ _; exact hA
  | cons t ts ih =>
      intro st hA hS hP
      have hrun : runPosture delay appear c (t :: ts) st =
          runPosture delay appear c ts (postureStep delay appear st (c t) t) :=
        rfl
      rw [hrun]
      have hPrest : ∀ u ∈ ts, ∀ v ∈ ts, v - u < appear := by
        intro u hu v hv
        exact hP u (by simp [hu]) v (by simp [hv])
      cases hc : c t with
      | false =>
          have hg := (postureStep_gate_cases delay appear st t).1
          exact ih _ hg.1 (Or.inl hg.2) hPrest
      | true =>
          rcases hS with hnone | ⟨s, hs, has, hlt⟩
          · have hg := (postureStep_gate_cases delay appear st t).2.1 hnone
            refine ih _ (hg.1.trans hA) (Or.inr ⟨t, hg.2.1, hg.2.2, ?_⟩) hPrest
            intro u hu
            exact hP t (by simp) u (by simp [hu])
          · have hg := (postureStep_gate_cases delay appear st t).2.2 s hs has
              (hlt t (by simp))
            refine ih _ (hg.1.trans hA) (Or.inr ⟨s, hg.2.1, hg.2.2, ?_⟩) hPrest
            intro u hu
            exact hlt u (by simp [hu])

set_option maxRecDepth 8000 in
/-- **C7 counterexample.** With the default `delay_seconds = 6` and
`active_alert_appear_seconds = 1`, a too-close condition continuously true
on the one-second cycles 0..6 fires *no* notification at t = 6 — the test
of line 2248 is the strict `now - start > max(1, delay)`, so the first
fire is at t = 7 — and the nail-biting category enters the active-alerts
set on the very first detection cycle, with no appear delay at all. -/
theorem too_close_fires_late_and_nail_active_immediately :
    (runTooClose 6 1 (fun _ => true) [0, 1, 2, 3, 4, 5, 6] initTooClose).fires
      = [] ∧
    (runTooClose 6 1 (fun _ => true) [0, 1, 2, 3, 4, 5, 6, 7]
      initTooClose).fires = [7] ∧
    (nailStep initNail true 0).inActive = true := by
  decide

set_option maxRecDepth 8000 in
/-- **C7 (amended).** Over every ascending sequence of cycle instants and
every condition stream, starting idle: a posture notification at instant
`n` requires a start instant `s` with `s + max(1, delay) ≤ n` such that
the condition held at every processed instant in `[s, n]`; a too-close
notification requires the *strictly* larger elapsed time
`s + max(1, delay) < n` (line 2248), so with one-second cycles and
`delay = 6` it fires at t = 7, not t = 6; if all cycle instants lie
within a window shorter than `appear`, the posture category never enters
the active-alerts set; and in the default scenario (`delay = 6`,
`appear = 1`, condition continuously true at 0,1,2,...) the posture
category fires exactly once, at t = 6, is not yet active after the cycle
at 0 but is active after the cycle at 1, while the too-close category
fires at t = 7 and — its start rewritten to the 60-second cooldown
instant 67 — next at t = 74. The behaviour categories (nail biting, face
touch) are exempt: they activate immediately (see the C7 counterexample)
and use fixed durations instead of `delay_seconds`. -/
theorem alert_delay_appear_and_cooldown
    (delay appear : ℕ) (c : ℕ → Bool) (ts : List ℕ) (b : ℕ)
    (hasc : ascTimes b ts = true) :
    (∀ n ∈ (runPosture delay appear c ts initPosture).fires,
      ∃ s, s + max 1 delay ≤ n ∧ ∀ u ∈ ts, s ≤ u → u ≤ n → c u = true) ∧
    (∀ n ∈ (runTooClose delay appear c ts initTooClose).fires,
      ∃ s, s + max 1 delay < n ∧ ∀ u ∈ ts, s ≤ u → u ≤ n → c u = true) ∧
    ((∀ u ∈ ts, ∀ v ∈ ts, v - u < appear) →
      (runPosture delay appear c ts initPosture).inActive = false) ∧
    ((runPosture 6 1 (fun _ => true)
        [0, 1, 2, 3, 4, 5, 6, 7, 8, 9, 10, 11, 12, 13, 14, 15, 16, 17, 18,
         19, 20] initPosture).fires = [6] ∧
     (runPosture 6 1 (fun _ => true) [0] initPosture).inActive = false ∧
     (runPosture 6 1 (fun _ => true) [0, 1] initPosture).inActive = true ∧
     (runTooClose 6 1 (fun _ => true) (List.range 75) initTooClose).fires
       = [7, 74]) := by
  refine ⟨?_, ?_, ?_, by decide, by decide, by decide, by decide⟩
  · intro n hn
    have h := posture_fires_sound_aux delay appear c ts [] b initPosture hasc
      (by simp) (by simp [initPosture]) (by simp [initPosture]) n hn
    simpa using h
  · intro n hn
    have h := tooClose_fires_sound_aux delay appear c ts [] b initTooClose hasc
      (by simp) (by simp [initTooClose]) (by simp [initTooClose]) n hn
    simpa using h
  · intro hP
    exact posture_gate_aux delay appear c ts initPosture rfl (Or.inl rfl) hP

set_option maxRecDepth 8000 in
/-- Witness for `alert_delay_appear_and_cooldown` at the default scenario:
delay 6, appear 1, condition constantly true, cycles 0..20. -/
theorem alert_delay_appear_and_cooldown_witness :
    ascTimes 0 [0, 1, 2, 3, 4, 5, 6, 7, 8, 9, 10, 11, 12, 13, 14, 15, 16,
      17, 18, 19, 20] = true ∧
    (∀ n ∈ (runPosture 6 1 (fun _ => true)
        [0, 1, 2, 3, 4, 5, 6, 7, 8, 9, 10, 11, 12, 13, 14, 15, 16, 17, 18,
         19, 20] initPosture).fires,
      ∃ s, s + max 1 6 ≤ n ∧
        ∀ u ∈ [0, 1, 2, 3, 4, 5, 6, 7, 8, 9, 10, 11, 12, 13, 14, 15, 16,
          17, 18, 19, 20], s ≤ u → u ≤ n → (fun _ => true) u = true) := by
  refine ⟨by decide, ?_⟩
  exact (alert_delay_appear_and_cooldown 6 1 (fun _ => true)
    [0, 1, 2, 3, 4, 5, 6, 7, 8, 9, 10, 11, 12, 13, 14, 15, 16, 17, 18, 19,
     20] 0 (by decide)).1


/-! ### The post-erase world (C10) -/

/-- **C10 counterexample.** A data erase with a visible segment still open
does *not* isolate the fresh tables from pre-erase accumulation: the
resets of lines 1236-1261 never assign `visible_start` (or
`slouch_session_start`), so after a cycle that opened a visible segment at
t = 0 and an immediate erase, the daily flush at t = 20 folds the whole
20-second segment — pre-erase portion included — back into the freshly
truncated `screen_time` table. -/
theorem erase_keeps_open_segment_and_reinserts :
    (runEvents "D" (initAgg, initDB)
        [Ev.cycle 0 true none none, Ev.erase,
         Ev.flush 20 "H" none]).1.visible_start = some 0 ∧
    ((runEvents "D" (initAgg, initDB)
        [Ev.cycle 0 true none none, Ev.erase,
         Ev.flush 20 "H" none]).2.durable.screen_time "D").getD 0 = 20 := by
  exact ⟨rfl, rfl⟩

/-- **C10 (amended).** A confirmed data erase resets exactly the listed
in-memory quantities — `visible_seconds`, `slouch_accum_seconds`, both
saved watermarks, the four pending hourly buffers, the pending daily
distance sum/count, the distance totals, the distances buffer and the
active-alerts set — to zero or empty, but it leaves the in-progress
segment markers `visible_start` and `slouch_session_start` untouched, so
a segment straddling the erase re-enters the truncated tables in full at
the next flush (see the C10 counterexample). When no visible segment is
open at the instant of the erase, every later persisted daily
screen-time value derives solely from post-erase cycles: over any
wellformed failure-free erase-free continuation, the value persisted at
shutdown is exactly the visible-segment total of the post-erase cycle
samples. -/
theorem data_erase_resets_accumulators_not_segment_markers
    (s : AggState) (db : DB) (today hour : String) :
    ((executeDataErase s db).1.visible_seconds = 0 ∧
     (executeDataErase s db).1.slouch_accum_seconds = 0 ∧
     (executeDataErase s db).1.saved_visible_seconds = 0 ∧
     (executeDataErase s db).1.saved_slouch_seconds = 0 ∧
     (executeDataErase s db).1.pending_hour_visible_seconds = 0 ∧
     (executeDataErase s db).1.pending_hour_slouch_seconds = 0 ∧
     (executeDataErase s db).1.pending_hour_distance_sum = 0 ∧
     (executeDataErase s db).1.pending_hour_distance_count = 0 ∧
     (executeDataErase s db).1.pending_distance_sum = 0 ∧
     (executeDataErase s db).1.pending_distance_count = 0 ∧
     (executeDataErase s db).1.distance_sum_total = 0 ∧
     (executeDataErase s db).1.distance_count_total = 0 ∧
     (executeDataErase s db).1.distances_buffer = [] ∧
     (executeDataErase s db).1.active_alerts = []) ∧
    ((executeDataErase s db).1.visible_start = s.visible_start ∧
     (executeDataErase s db).1.slouch_session_start =
       s.slouch_session_start) ∧
    (s.visible_start = none →
      ∀ (tr : List Ev) (T : ℕ), timesOkFrom 0 tr = true →
        lastTime 0 tr ≤ T → noFail tr = true → noErase tr = true →
        ((closeApp (runEvents today (executeDataErase s db) tr).1
            (runEvents today (executeDataErase s db) tr).2 none today hour
            true T).2.durable.screen_time today).getD 0 =
          specVisTotalClose (cyclesOf tr) T) := by
  refine ⟨⟨rfl, rfl, rfl, rfl, rfl, rfl, rfl, rfl, rfl, rfl, rfl, rfl, rfl,
    rfl⟩, ⟨rfl, rfl⟩, ?_⟩
  intro hvs tr T hok hT hnf hne
  have hG0 : GoodW today (executeDataErase s db) 0 :=
    ⟨⟨Nat.zero_le _, Nat.zero_le _⟩, rfl, rfl, rfl⟩
  have hrun := GoodW_runEvents today tr (executeDataErase s db) 0 hG0 hok
    hnf hne
  have hGT : GoodW today (runEvents today (executeDataErase s db) tr) T :=
    ⟨(hrun.1.1).mono hT, hrun.1.2.1, hrun.1.2.2.1, hrun.1.2.2.2⟩
  have hcl := closeApp_goodFinal today hour true T _ hGT
  have hvp0 : vp (executeDataErase s db).1 = (0, none) := by
    simp [vp, executeDataErase, hvs]
  have hpair : vp (runEvents today (executeDataErase s db) tr).1 =
      specVisPair (0, none) (cyclesOf tr) := by
    rw [hrun.2, hvp0]
  rw [hpair] at hcl
  rw [specVisTotalClose_eq]
  exact hcl.2

/-- Witness for `data_erase_resets_accumulators_not_segment_markers`:
erasing the pristine world (no open segment) and then running one visible
cycle at t = 2 with shutdown at t = 5 persists exactly the 3 post-erase
seconds. -/
theorem data_erase_resets_accumulators_not_segment_markers_witness :
    ((closeApp (runEvents "D" (executeDataErase initAgg initDB)
        [Ev.cycle 2 true none none]).1
        (runEvents "D" (executeDataErase initAgg initDB)
        [Ev.cycle 2 true none none]).2 none "D" "H" true
        5).2.durable.screen_time "D").getD 0 =
      specVisTotalClose (cyclesOf [Ev.cycle 2 true none none]) 5 ∧
    specVisTotalClose (cyclesOf [Ev.cycle 2 true none none]) 5 = 3 := by
  refine ⟨(data_erase_resets_accumulators_not_segment_markers initAgg initDB
    "D" "H").2.2 rfl [Ev.cycle 2 true none none] 5 (by decide) (by decide)
    (by decide) (by decide), by decide⟩

end ScreenGuardian
